import Mathlib

/-!
Verification development for the plunk email-delivery task dispatcher
(`src/unnamed/part_009`, class `Tasks`), the design the specification follows:
per-minute and per-second fixed rate windows backed by a shared Redis counter
store, a batch dispatch loop with retry/backoff admission, and campaign
completion reconciliation.

The embedding is a shallow one: Redis is a record of the two window counters
for the current wall-clock windows plus per-operation failure flags (an
operation whose flag is set raises, which the TypeScript `try`/`catch`
structure is translated from explicitly via `Except`); the relational store is
a record of lists; every store mutation of interest is instrumented with an
append-only log (send attempts, email receipts, task-status updates,
successful reservations) so that the observable behaviour the specification
talks about is a function of the final state.  A single invocation is modelled
inside one minute window; the one-second sleep taken on per-second contention
rolls the per-second bucket over to a fresh (empty) one, which is what happens
on the wall clock when no other writer is racing.
-/

namespace Plunk

/-- Task status enum (`TaskStatus` in the prisma schema). -/
inductive TaskStatus
  | PENDING
  | PROCESSING
  | COMPLETED
  | FAILED
deriving DecidableEq, Repr

/-- Campaign status enum; the dispatcher only distinguishes `DELIVERED` from
the non-terminal states. -/
inductive CampaignStatus
  | DRAFT
  | SENDING
  | DELIVERED
deriving DecidableEq, Repr

/-- The Redis counter store as seen by one invocation: the stored values of
the current minute and second buckets, per-operation failure flags (a set
flag means that operation raises), and an instrumentation counter of
successful reservations (each `canSendEmail` call that returns `true`). -/
structure Redis where
  minuteCount : Nat
  secondCount : Nat
  getMinuteFails : Bool
  getSecondFails : Bool
  pipelineFails : Bool
  reservations : Nat
deriving DecidableEq, Repr

/-- The raw `redis.get` on the minute bucket: raises when the store errors. -/
def rawGetMinute (r : Redis) : Except Unit Nat :=
  if r.getMinuteFails then .error () else .ok r.minuteCount

/-- The raw `redis.get` on the second bucket: raises when the store errors. -/
def rawGetSecond (r : Redis) : Except Unit Nat :=
  if r.getSecondFails then .error () else .ok r.secondCount

/-- `Tasks.getCurrentMinuteCount`: reads the minute bucket, catching any
store error and returning 0 in that case. -/
def getCurrentMinuteCount (r : Redis) : Nat :=
  match rawGetMinute r with
  | .ok n => n
  | .error _ => 0

/-- `Tasks.getCurrentSecondCount`: reads the second bucket, catching any
store error and returning 0 in that case. -/
def getCurrentSecondCount (r : Redis) : Nat :=
  match rawGetSecond r with
  | .ok n => n
  | .error _ => 0

/-- The increment pipeline of `Tasks.canSendEmail` (INCR minute, INCR second,
with expirations): bumps both stored counters and records one successful
reservation. -/
def incrBoth (r : Redis) : Redis :=
  { r with
    minuteCount := r.minuteCount + 1
    secondCount := r.secondCount + 1
    reservations := r.reservations + 1 }

/-- `Tasks.canSendEmail`: checks the minute ceiling, then the second ceiling,
then increments both counters via a pipeline; the surrounding `try`/`catch`
turns a pipeline error into `false`.  Returns the decision together with the
updated store. -/
def canSendEmail (maxPerMinute maxPerSecond : Nat) (r : Redis) : Bool × Redis :=
  let minuteCount := getCurrentMinuteCount r
  if maxPerMinute ≤ minuteCount then (false, r)
  else
    let secondCount := getCurrentSecondCount r
    if maxPerSecond ≤ secondCount then (false, r)
    else if r.pipelineFails then (false, r)
    else (true, incrBoth r)

/-! Interleaving model of `canSendEmail` for concurrent callers.  A caller is
a little program counter over the three store round trips the function makes
(read the minute bucket, read the second bucket, run the increment pipeline);
two callers share one `Redis` state and a schedule says which caller performs
its next round trip. -/

/-- One in-flight `canSendEmail` caller: program counter 0 = about to read the
minute bucket, 1 = about to read the second bucket, 2 = about to run the
increment pipeline, 3 = finished with `result` set. -/
structure Caller where
  pc : Nat
  result : Option Bool
deriving DecidableEq, Repr

/-- A fresh caller about to start `canSendEmail`. -/
def Caller.start : Caller := { pc := 0, result := none }

/-- One store round trip of a `canSendEmail` caller against the shared
counter state. -/
def stepCaller (maxPerMinute maxPerSecond : Nat) (r : Redis) (c : Caller) :
    Redis × Caller :=
  match c.pc with
  | 0 =>
    if maxPerMinute ≤ getCurrentMinuteCount r then
      (r, { c with pc := 3, result := some false })
    else (r, { c with pc := 1 })
  | 1 =>
    if maxPerSecond ≤ getCurrentSecondCount r then
      (r, { c with pc := 3, result := some false })
    else (r, { c with pc := 2 })
  | 2 =>
    if r.pipelineFails then (r, { c with pc := 3, result := some false })
    else (incrBoth r, { c with pc := 3, result := some true })
  | _ => (r, c)

/-- Run two concurrent `canSendEmail` callers under a schedule: entry `false`
lets caller `a` perform its next store round trip, entry `true` caller `b`. -/
def runSchedule (maxPerMinute maxPerSecond : Nat) :
    List Bool → Redis × Caller × Caller → Redis × Caller × Caller
  | [], s => s
  | pick :: rest, (r, a, b) =>
    if pick then
      let (r', b') := stepCaller maxPerMinute maxPerSecond r b
      runSchedule maxPerMinute maxPerSecond rest (r', a, b')
    else
      let (r', a') := stepCaller maxPerMinute maxPerSecond r a
      runSchedule maxPerMinute maxPerSecond rest (r', a', b)

/-! Relational data model, following the prisma schema fields that the
dispatcher reads and writes.  Identifiers and timestamps are natural
numbers; a contact's JSON metadata blob is modelled already parsed, as a
key/value list. -/

/-- An event row (only its identity matters to the dispatcher). -/
structure Event where
  id : Nat
deriving DecidableEq, Repr

/-- Template style flag. -/
inductive Style
  | PLAIN
  | HTML
deriving DecidableEq, Repr

/-- Template type flag (controls the unsubscribe footer). -/
inductive TemplateType
  | MARKETING
  | TRANSACTIONAL
deriving DecidableEq, Repr

/-- A template: subject/body, optional sender email and from-name overrides,
type and style flags. -/
structure Template where
  subject : String
  body : String
  email : Option String
  fromName : Option String
  ttype : TemplateType
  style : Style
deriving DecidableEq, Repr

/-- An action joined with its template and suppression events
(`notevents`). -/
structure Action where
  id : Nat
  template : Template
  notevents : List Event
deriving DecidableEq, Repr

/-- A campaign row. -/
structure Campaign where
  id : Nat
  subject : String
  body : String
  email : Option String
  fromName : Option String
  style : Style
  status : CampaignStatus
  delivered : Option Nat
deriving DecidableEq, Repr

/-- A contact row; `data` is the parsed metadata blob. -/
structure Contact where
  id : Nat
  email : String
  projectId : Nat
  data : List (String × String)
deriving DecidableEq, Repr

/-- A project row (the fields the send path reads). -/
structure Project where
  id : Nat
  verified : Bool
  email : Option String
  fromName : Option String
  name : String
deriving DecidableEq, Repr

/-- A task row with its relations joined in, as `TaskWithRelations` in the
source (`include: action → template + notevents, campaign, contact`).  The
campaign relation is kept as the foreign key and resolved against the
campaign table. -/
structure TaskRow where
  id : Nat
  createdAt : Nat
  status : TaskStatus
  action : Option Action
  campaignId : Option Nat
  contact : Contact
deriving DecidableEq, Repr

/-- An instrumentation record of one mail-transport call
(`EmailService.send`): the from name/email, recipient, rendered subject and
body content, and the footer/style flags passed to the compiler. -/
structure SendEvent where
  fromName : String
  fromEmail : String
  toAddr : String
  subject : String
  body : String
  unsubscribe : Bool
  isHtml : Bool
deriving DecidableEq, Repr

/-- An email receipt row (`prisma.email.create`). -/
structure EmailReceipt where
  messageId : Nat
  contactId : Nat
  actionId : Option Nat
  campaignId : Option Nat
deriving DecidableEq, Repr

/-- An instrumentation record of one task-status write: the task it hit, the
status the row held at that moment, and the status written. -/
structure StatusUpdate where
  taskId : Nat
  oldStatus : TaskStatus
  newStatus : TaskStatus
deriving DecidableEq, Repr

/-- The relational store plus instrumentation logs: `sends` records every
mail-transport call, `updates` every task-status write, in order. -/
structure DB where
  tasks : List TaskRow
  campaigns : List Campaign
  projects : List Project
  triggers : List (Nat × Nat)
  emails : List EmailReceipt
  sends : List SendEvent
  updates : List StatusUpdate
deriving DecidableEq, Repr

/-- Per-invocation environment: the transport outcome for each task id
(`sendFails t = true` makes `EmailService.send` raise for that task) and the
wall clock used for `new Date()` timestamps. -/
structure Env where
  sendFails : Nat → Bool
  clock : Nat

/-- Look up a campaign row by id. -/
def findCampaign (db : DB) (cid : Nat) : Option Campaign :=
  db.campaigns.find? (fun c => c.id = cid)

/-- `ProjectService.id`: look up a project row by id. -/
def findProject (db : DB) (pid : Nat) : Option Project :=
  db.projects.find? (fun p => p.id = pid)

/-- `ContactService.triggers`: the (contactId, eventId) trigger pairs of one
contact. -/
def triggersFor (db : DB) (cid : Nat) : List (Nat × Nat) :=
  db.triggers.filter (fun tr => tr.1 = cid)

/-- The store after a status write on the rows with the given id, with the
transition logged. -/
def dbAfterSet (db : DB) (id : Nat) (st : TaskStatus) : DB :=
  { db with
    tasks := db.tasks.map (fun t => if t.id = id then { t with status := st } else t)
    updates := db.updates ++
      (db.tasks.filter (fun t => t.id = id)).map
        (fun t => { taskId := id, oldStatus := t.status, newStatus := st }) }

/-- A single `prisma.task.update` by id: raises (Prisma `P2025`) when no row
has the id, otherwise writes the status on the matching rows and logs the
transition. -/
def updateTaskStatus (db : DB) (id : Nat) (st : TaskStatus) : Except Unit DB :=
  if db.tasks.any (fun t => t.id = id) then .ok (dbAfterSet db id st)
  else .error ()

/-- The `prisma.task.updateMany` of the vanished-project cleanup: every
PENDING task whose contact belongs to the project is marked FAILED. -/
def bulkFailProject (db : DB) (pid : Nat) : DB :=
  { db with
    tasks := db.tasks.map
      (fun t => if t.contact.projectId = pid ∧ t.status = .PENDING
        then { t with status := .FAILED } else t)
    updates := db.updates ++
      (db.tasks.filter (fun t => t.contact.projectId = pid ∧ t.status = .PENDING)).map
        (fun t => { taskId := t.id, oldStatus := t.status, newStatus := .FAILED }) }

/-- The `prisma.task.deleteMany` of the vanished-project cleanup: every task
whose contact belongs to the project is removed, whatever its status. -/
def deleteProjectTasks (db : DB) (pid : Nat) : DB :=
  { db with tasks := db.tasks.filter (fun t => ¬ t.contact.projectId = pid) }

/-- Modelled from the spec: `EmailService.format` (the MessageRenderer glue)
is not among the provided sources; per the spec it substitutes merge fields
(contact id, contact email, and the metadata keys) into the subject/body
text.  No claim inspects the substitution itself. -/
def formatText (tmpl : String) (data : List (String × String)) : String :=
  data.foldl
    (fun acc kv => acc.replace ("\x7b\x7b" ++ kv.1 ++ "\x7d\x7d") kv.2) tmpl

/-- The merge-field dictionary `{ plunk_id, plunk_email, ...contact.data }`
built for `EmailService.format`. -/
def mergeData (contact : Contact) : List (String × String) :=
  ("plunk_id", toString contact.id) ::
    ("plunk_email", contact.email) :: contact.data

/-- The sender-email resolution
`project.verified && project.email ? override ?? project.email : "no-reply@useplunk.dev"`. -/
def resolveFromEmail (project : Project) (override : Option String) : String :=
  match project.verified, project.email with
  | true, some pe => override.getD pe
  | _, _ => "no-reply@useplunk.dev"

/-- The from-name resolution `override ?? project.from ?? project.name`. -/
def resolveFromName (project : Project) (override : Option String) : String :=
  override.getD (project.fromName.getD project.name)

/-- The tail of `Tasks.processTask`: call `EmailService.send` (logged as a
`SendEvent`; a transport error raises, reported as `false`) and on success
create the email receipt with `actionId` when the task has an action, else
`campaignId` when it has a campaign.  Returns the store together with
whether the body ran to completion (`false` = an exception is in flight). -/
def sendAndRecord (env : Env) (db : DB) (task : TaskRow)
    (campaign : Option Campaign) (subject body email name : String) :
    DB × Bool :=
  let unsubscribe : Bool :=
    match campaign with
    | some _ => true
    | none =>
      match task.action with
      | some a => decide (a.template.ttype = .MARKETING)
      | none => false
  let isHtml : Bool :=
    match campaign with
    | some c => decide (c.style = .HTML)
    | none =>
      match task.action with
      | some a => decide (a.template.style = .HTML)
      | none => false
  let db1 := { db with sends := db.sends ++
    [{ fromName := name, fromEmail := email, toAddr := task.contact.email,
       subject := subject, body := body,
       unsubscribe := unsubscribe, isHtml := isHtml }] }
  if env.sendFails task.id then (db1, false)
  else
    let receipt : EmailReceipt :=
      { messageId := db.sends.length
        contactId := task.contact.id
        actionId := task.action.map (fun a => a.id)
        campaignId :=
          if task.action.isSome then none
          else campaign.map (fun c => c.id) }
    ({ db1 with emails := db1.emails ++ [receipt] }, true)

/-- `Tasks.processTask`: look up the project (vanished project → bulk-fail
then delete every task of that project and return); with an action, check
the suppression events against the contact's triggers and silently return
when one already fired, else render from the template; with a campaign,
render from the campaign; with neither, leave subject/body/from empty; then
send and record the receipt.  The `Bool` is `true` when the body returned
normally, `false` when an exception is in flight (the transport raised). -/
def processTask (env : Env) (db : DB) (task : TaskRow) : DB × Bool :=
  match findProject db task.contact.projectId with
  | none =>
    (deleteProjectTasks (bulkFailProject db task.contact.projectId)
      task.contact.projectId, true)
  | some project =>
    let campaign := task.campaignId.bind (findCampaign db)
    match task.action with
    | some action =>
      if 0 < action.notevents.length ∧
          action.notevents.any (fun e =>
            (triggersFor db task.contact.id).any (fun tr =>
              tr.1 = task.contact.id ∧ tr.2 = e.id)) then
        (db, true)
      else
        let email := resolveFromEmail project action.template.email
        let name := resolveFromName project action.template.fromName
        let subject := formatText action.template.subject (mergeData task.contact)
        let body := formatText action.template.body (mergeData task.contact)
        sendAndRecord env db task campaign subject body email name
    | none =>
      match campaign with
      | some c =>
        let email := resolveFromEmail project c.email
        let name := resolveFromName project c.fromName
        let subject := formatText c.subject (mergeData task.contact)
        let body := formatText c.body (mergeData task.contact)
        sendAndRecord env db task campaign subject body email name
      | none =>
        sendAndRecord env db task campaign "" "" "" ""

/-- `Tasks.processSingleTask`: mark PROCESSING, run `processTask`, mark
COMPLETED and report `true`; on any exception, the catch marks FAILED and
reports `false`.  A status write on a task that no longer exists raises, so
when the catch's own FAILED write raises too the exception propagates to the
caller, reported here as `none`. -/
def processSingleTask (env : Env) (db : DB) (task : TaskRow) :
    DB × Option Bool :=
  match updateTaskStatus db task.id .PROCESSING with
  | .error _ =>
    match updateTaskStatus db task.id .FAILED with
    | .ok db2 => (db2, some false)
    | .error _ => (db, none)
  | .ok db1 =>
    let (db2, ok) := processTask env db1 task
    if ok then
      match updateTaskStatus db2 task.id .COMPLETED with
      | .ok db3 => (db3, some true)
      | .error _ =>
        match updateTaskStatus db2 task.id .FAILED with
        | .ok db4 => (db4, some false)
        | .error _ => (db2, none)
    else
      match updateTaskStatus db2 task.id .FAILED with
      | .ok db3 => (db3, some false)
      | .error _ => (db2, none)

/-- The tasks with PENDING, PROCESSING status that still reference a
campaign (the reconciler's outstanding count). -/
def countPendingProcessing (db : DB) (cid : Nat) : Nat :=
  (db.tasks.filter (fun t => t.campaignId = some cid ∧
    (t.status = .PENDING ∨ t.status = .PROCESSING))).length

/-- The `prisma.campaign.update` that flips a campaign to DELIVERED with the
current wall clock as delivered timestamp. -/
def markDelivered (env : Env) (db : DB) (cid : Nat) : DB :=
  { db with campaigns := db.campaigns.map (fun c =>
      if c.id = cid then { c with status := .DELIVERED, delivered := some env.clock }
      else c) }

/-- One iteration of `Tasks.checkAndMarkCampaignsFinished`: skip a missing or
already-DELIVERED campaign; otherwise count its PENDING/PROCESSING tasks and
flip it to DELIVERED when none remain. -/
def reconcileOne (env : Env) (db : DB) (cid : Nat) : DB :=
  match findCampaign db cid with
  | none => db
  | some c =>
    if c.status = .DELIVERED then db
    else if countPendingProcessing db cid = 0 then markDelivered env db cid
    else db

/-- `Tasks.checkAndMarkCampaignsFinished` over the collected campaign ids. -/
def checkAndMarkCampaignsFinished (env : Env) (db : DB) (ids : List Nat) : DB :=
  ids.foldl (reconcileOne env) db

/-! The dispatch loop of `Tasks.handleTasks`. -/

/-- `MAX_RETRIES` of the admission loop. -/
def MAX_RETRIES : Nat := 3

/-- The one-second sleep taken on per-second contention: the per-second
bucket rolls over to a fresh, empty one (no concurrent writer is modelled at
this level). -/
def sleepSecond (r : Redis) : Redis := { r with secondCount := 0 }

/-- Outcome of the admission loop for one task. -/
inductive ReserveOutcome
  | minuteLimit
  | reserved
  | skipped
deriving DecidableEq, Repr

/-- The `while (!canSend && retries < MAX_RETRIES)` admission loop: re-check
the minute ceiling (reaching it returns the whole invocation early), wait
out per-second contention, then attempt `canSendEmail`; a failed attempt
consumes a retry.  `fuel` bounds the iterations of this loop; it is called
with enough fuel that, within one minute window, fuel never runs out before
the retry budget. -/
def reserveLoop (maxPerMinute maxPerSecond : Nat) :
    Nat → Redis → Nat → Redis × ReserveOutcome
  | 0, r, _ => (r, .skipped)
  | fuel + 1, r, retries =>
    if MAX_RETRIES ≤ retries then (r, .skipped)
    else if maxPerMinute ≤ getCurrentMinuteCount r then (r, .minuteLimit)
    else if maxPerSecond ≤ getCurrentSecondCount r then
      reserveLoop maxPerMinute maxPerSecond fuel (sleepSecond r) retries
    else
      let (ok, r') := canSendEmail maxPerMinute maxPerSecond r
      if ok then (r', .reserved)
      else reserveLoop maxPerMinute maxPerSecond fuel r' (retries + 1)

/-- Fuel that the admission loop can never exhaust before its retry budget
(each iteration either consumes a retry or is a sleep iteration, and two
sleep iterations never run back to back once the bucket has rolled over). -/
def reserveFuel : Nat := 2 * MAX_RETRIES + 2

/-- State threaded through the `for (const task of tasks)` loop. -/
structure LoopState where
  db : DB
  redis : Redis
  processed : Nat
  completedCampaignIds : List Nat
deriving Repr

/-- `Set.add` on the collected campaign ids. -/
def insertId (l : List Nat) (x : Nat) : List Nat :=
  if x ∈ l then l else l ++ [x]

/-- One iteration of the dispatch loop: the per-task minute-ceiling check
(reaching it returns the invocation early, reported as `true`), the
admission loop, then — only with a reserved slot — `processSingleTask`,
collecting the campaign id on a completed task and counting the task as
processed unless the exception propagated. -/
def dispatchOne (maxPerMinute maxPerSecond : Nat) (env : Env)
    (st : LoopState) (task : TaskRow) : LoopState × Bool :=
  if maxPerMinute ≤ getCurrentMinuteCount st.redis then (st, true)
  else
    match reserveLoop maxPerMinute maxPerSecond reserveFuel st.redis 0 with
    | (r', .minuteLimit) => ({ st with redis := r' }, true)
    | (r', .skipped) => ({ st with redis := r' }, false)
    | (r', .reserved) =>
      let (db', res) := processSingleTask env st.db task
      match res with
      | some wasCompleted =>
        let ids :=
          if wasCompleted then
            match task.campaignId with
            | some cid => insertId st.completedCampaignIds cid
            | none => st.completedCampaignIds
          else st.completedCampaignIds
        ({ db := db', redis := r', processed := st.processed + 1,
           completedCampaignIds := ids }, false)
      | none => ({ st with db := db', redis := r' }, false)

/-- The dispatch loop over the claimed batch; `true` reports the early
return taken when the minute ceiling is reached. -/
def runLoop (maxPerMinute maxPerSecond : Nat) (env : Env) :
    List TaskRow → LoopState → LoopState × Bool
  | [], st => (st, false)
  | task :: rest, st =>
    let (st', early) := dispatchOne maxPerMinute maxPerSecond env st task
    if early then (st', true)
    else runLoop maxPerMinute maxPerSecond env rest st'

/-- The JSON body of the dispatcher response; `rateLimited` and `timestamp`
are `none` when the corresponding field is absent from the body. -/
structure TasksResponse where
  success : Bool
  processed : Nat
  rateLimited : Option Bool
  timestamp : Option Nat
deriving DecidableEq, Repr

/-- The batch claim of `Tasks.handleTasks`: the PENDING tasks ordered by
`createdAt` ascending, truncated to `MAX_EMAILS_PER_MINUTE` many. -/
def claimedTasks (maxPerMinute : Nat) (db : DB) : List TaskRow :=
  ((db.tasks.filter (fun t => t.status = .PENDING)).insertionSort
    (fun a b => a.createdAt ≤ b.createdAt)).take maxPerMinute

/-- `Tasks.handleTasks`: claim the batch (empty batch short-circuits with
`{success, processed: 0}`), run the dispatch loop, and unless the loop
returned early reconcile the completed campaigns; both exits respond
`{success, processed, timestamp}` with no `rateLimited` field. -/
def handleTasks (maxPerMinute maxPerSecond : Nat) (env : Env)
    (db : DB) (r : Redis) : DB × Redis × TasksResponse :=
  let tasks := claimedTasks maxPerMinute db
  if tasks.isEmpty then
    (db, r, { success := true, processed := 0, rateLimited := none, timestamp := none })
  else
    let (st, early) :=
      runLoop maxPerMinute maxPerSecond env tasks
        { db := db, redis := r, processed := 0, completedCampaignIds := [] }
    if early then
      (st.db, st.redis,
        { success := true, processed := st.processed, rateLimited := none,
          timestamp := some env.clock })
    else
      let db' := checkAndMarkCampaignsFinished env st.db st.completedCampaignIds
      (db', st.redis,
        { success := true, processed := st.processed, rateLimited := none,
          timestamp := some env.clock })

/-! Concrete fixtures used by counterexamples and witnesses. -/

/-- An environment whose transport always succeeds, with the clock at 7. -/
def envOk : Env := { sendFails := fun _ => false, clock := 7 }

/-- A fresh counter store. -/
def redisStart : Redis := ⟨0, 0, false, false, false, 0⟩

/-- An unverified project. -/
def projectOne : Project :=
  { id := 1, verified := false, email := none, fromName := none, name := "P" }

/-- A contact of `projectOne`. -/
def contactOne : Contact := { id := 10, email := "a@b", projectId := 1, data := [] }

/-- A PENDING task with neither an action nor a campaign, for `contactOne`. -/
def taskPlain (i created : Nat) : TaskRow :=
  { id := i, createdAt := created, status := .PENDING, action := none,
    campaignId := none, contact := contactOne }

/-- A store with two plain PENDING tasks and their project. -/
def dbTwoPlain : DB :=
  { tasks := [taskPlain 1 0, taskPlain 2 1], campaigns := [],
    projects := [projectOne], triggers := [], emails := [], sends := [],
    updates := [] }

/-- A store with no tasks at all. -/
def dbEmpty : DB :=
  { tasks := [], campaigns := [], projects := [projectOne], triggers := [],
    emails := [], sends := [], updates := [] }

/-- A SENDING campaign with no delivered timestamp. -/
def campSending : Campaign :=
  { id := 3, subject := "s", body := "b", email := none, fromName := none,
    style := .PLAIN, status := .SENDING, delivered := none }

/-- A store holding `campSending` and no tasks. -/
def dbCamp : DB :=
  { tasks := [], campaigns := [campSending], projects := [projectOne],
    triggers := [], emails := [], sends := [], updates := [] }

/-- The status-order formalization used by the status-monotonicity
property: the transitions the dispatcher is allowed to log. -/
def allowedUpdate (u : StatusUpdate) : Prop :=
  (u.oldStatus = .PENDING ∧ u.newStatus = .PROCESSING) ∨
  (u.oldStatus = .PROCESSING ∧ u.newStatus = .COMPLETED) ∨
  (u.oldStatus = .PROCESSING ∧ u.newStatus = .FAILED) ∨
  (u.oldStatus = .PENDING ∧ u.newStatus = .FAILED)

/-- The three transitions of the strict lifecycle
PENDING → PROCESSING → terminal. -/
def strictUpdate (u : StatusUpdate) : Prop :=
  (u.oldStatus = .PENDING ∧ u.newStatus = .PROCESSING) ∨
  (u.oldStatus = .PROCESSING ∧ u.newStatus = .COMPLETED) ∨
  (u.oldStatus = .PROCESSING ∧ u.newStatus = .FAILED)

/-- Position of a status along the forward order
PENDING < PROCESSING < terminal. -/
def statusRank : TaskStatus → Nat
  | .PENDING => 0
  | .PROCESSING => 1
  | .COMPLETED => 2
  | .FAILED => 2


/-- A suppression event. -/
def eventSup : Event := { id := 77 }

/-- A marketing template. -/
def tmplMkt : Template :=
  { subject := "S", body := "B", email := none, fromName := none,
    ttype := .MARKETING, style := .PLAIN }

/-- An action whose suppression events are just `eventSup`. -/
def actionSup : Action := { id := 8, template := tmplMkt, notevents := [eventSup] }

/-- A contact whose project (99) does not exist. -/
def contactGone : Contact := { id := 20, email := "x@y", projectId := 99, data := [] }

/-- A second contact of the vanished project 99. -/
def contactGoneB : Contact := { id := 21, email := "z@w", projectId := 99, data := [] }

/-- A suppressed-action task whose project has vanished. -/
def taskSupGone : TaskRow :=
  { id := 6, createdAt := 0, status := .PENDING, action := some actionSup,
    campaignId := none, contact := contactGone }

/-- A store where `taskSupGone` is suppressed (the contact triggered event
77) but its project is missing. -/
def dbSupGone : DB :=
  { tasks := [taskSupGone], campaigns := [], projects := [projectOne],
    triggers := [(20, 77)], emails := [], sends := [], updates := [] }

/-- A suppressed-action task whose project exists. -/
def taskSup : TaskRow :=
  { id := 6, createdAt := 0, status := .PENDING, action := some actionSup,
    campaignId := none, contact := contactOne }

/-- A store where `taskSup` is suppressed and its project is live. -/
def dbSup : DB :=
  { tasks := [taskSup], campaigns := [], projects := [projectOne],
    triggers := [(10, 77)], emails := [], sends := [], updates := [] }

/-- First pending task of the vanished project 99. -/
def taskGoneA : TaskRow :=
  { id := 1, createdAt := 0, status := .PENDING, action := none,
    campaignId := none, contact := contactGone }

/-- Second pending task of the vanished project 99. -/
def taskGoneB : TaskRow :=
  { id := 2, createdAt := 1, status := .PENDING, action := none,
    campaignId := none, contact := contactGoneB }

/-- A store with two pending tasks of the vanished project 99. -/
def dbVanish : DB :=
  { tasks := [taskGoneA, taskGoneB], campaigns := [], projects := [projectOne],
    triggers := [], emails := [], sends := [], updates := [] }

/-- A store with a single plain task. -/
def dbOnePlain : DB :=
  { tasks := [taskPlain 1 0], campaigns := [], projects := [projectOne],
    triggers := [], emails := [], sends := [], updates := [] }

/-! Theorems. -/

/-- C4: the claim that the reservation primitive checks both ceilings and
increments both counters in one atomic step, so that two concurrent callers
that both pass the check cannot push a window's successful-admission count
over its ceiling, is false of `canSendEmail`: with a per-minute ceiling of 2
and one admission already counted, the interleaving that lets both callers
perform both reads before either increments admits both, leaving the minute
window at 3 admissions. -/
theorem C4_counterexample :
    (runSchedule 2 10 [false, false, true, true, false, true]
        (⟨1, 0, false, false, false, 1⟩, Caller.start, Caller.start)).2.1.result
        = some true ∧
    (runSchedule 2 10 [false, false, true, true, false, true]
        (⟨1, 0, false, false, false, 1⟩, Caller.start, Caller.start)).2.2.result
        = some true ∧
    2 < (runSchedule 2 10 [false, false, true, true, false, true]
        (⟨1, 0, false, false, false, 1⟩, Caller.start, Caller.start)).1.minuteCount ∧
    2 < (runSchedule 2 10 [false, false, true, true, false, true]
        (⟨1, 0, false, false, false, 1⟩, Caller.start, Caller.start)).1.reservations := by
  decide

/-- C4 (amended): `canSendEmail` is check-then-increment, not atomic.  A
single uninterleaved successful call never pushes either window count over
its ceiling (when its reads do not error), but two interleaved callers can
both pass the checks and together push the minute window's admission count
over the ceiling, as the concrete schedule shows. -/
theorem C4_thm :
    (∀ (maxPerMinute maxPerSecond : Nat) (r : Redis),
        r.getMinuteFails = false → r.getSecondFails = false →
        (canSendEmail maxPerMinute maxPerSecond r).1 = true →
        (canSendEmail maxPerMinute maxPerSecond r).2.minuteCount ≤ maxPerMinute ∧
        (canSendEmail maxPerMinute maxPerSecond r).2.secondCount ≤ maxPerSecond) ∧
    ((runSchedule 2 10 [false, false, true, true, false, true]
        (⟨1, 0, false, false, false, 1⟩, Caller.start, Caller.start)).2.1.result
        = some true ∧
     (runSchedule 2 10 [false, false, true, true, false, true]
        (⟨1, 0, false, false, false, 1⟩, Caller.start, Caller.start)).2.2.result
        = some true ∧
     2 < (runSchedule 2 10 [false, false, true, true, false, true]
        (⟨1, 0, false, false, false, 1⟩, Caller.start, Caller.start)).1.minuteCount) := by
  refine ⟨?_, by decide⟩
  intro maxPerMinute maxPerSecond r h1 h2 h3
  simp only [canSendEmail, getCurrentMinuteCount, getCurrentSecondCount,
    rawGetMinute, rawGetSecond, h1, h2, Bool.false_eq_true, if_false] at h3 ⊢
  split_ifs at h3 ⊢ with hA hB hC
  dsimp only [incrBoth]
  omega

/-- C4 witness: the sequential-safety part of the amended theorem applied at
a concrete store. -/
theorem C4_witness :
    (canSendEmail 3 3 ⟨0, 0, false, false, false, 0⟩).2.minuteCount ≤ 3 ∧
    (canSendEmail 3 3 ⟨0, 0, false, false, false, 0⟩).2.secondCount ≤ 3 :=
  C4_thm.1 3 3 ⟨0, 0, false, false, false, 0⟩ (by decide) (by decide) (by decide)

/-- C9: the claim that any counter-store error during a reservation attempt
makes the reservation return false is refuted by a store whose reads error
while the increment pipeline works: both snapshot reads raise, the true
minute count sits at the ceiling, and `canSendEmail` still returns true
(the caught read errors became counts of 0). -/
theorem C9_counterexample :
    rawGetMinute ⟨5, 0, true, true, false, 0⟩ = .error () ∧
    rawGetSecond ⟨5, 0, true, true, false, 0⟩ = .error () ∧
    (canSendEmail 5 5 ⟨5, 0, true, true, false, 0⟩).1 = true :=
  ⟨rfl, rfl, rfl⟩

/-- C9 (amended): errors from the two count reads are caught inside the
snapshot helpers, which return the default 0 (so a reservation whose reads
error but whose increments succeed can still return true); an error in the
increment pipeline makes `canSendEmail` return false, and no error
propagates to the caller. -/
theorem C9_thm :
    (∀ (maxPerMinute maxPerSecond : Nat) (r : Redis), r.pipelineFails = true →
        (canSendEmail maxPerMinute maxPerSecond r).1 = false ∧
        (canSendEmail maxPerMinute maxPerSecond r).2 = r) ∧
    (∀ r : Redis, r.getMinuteFails = true → getCurrentMinuteCount r = 0) ∧
    (∀ r : Redis, r.getSecondFails = true → getCurrentSecondCount r = 0) := by
  refine ⟨?_, ?_, ?_⟩
  · intro maxPerMinute maxPerSecond r h
    simp only [canSendEmail, h, if_true]
    split <;> simp
  · intro r h
    simp [getCurrentMinuteCount, rawGetMinute, h]
  · intro r h
    simp [getCurrentSecondCount, rawGetSecond, h]

/-- C9 witness: the amended theorem applied at concrete stores. -/
theorem C9_witness :
    ((canSendEmail 4 4 ⟨0, 0, false, false, true, 0⟩).1 = false ∧
      (canSendEmail 4 4 ⟨0, 0, false, false, true, 0⟩).2
        = ⟨0, 0, false, false, true, 0⟩) ∧
    getCurrentMinuteCount ⟨3, 0, true, false, false, 0⟩ = 0 ∧
    getCurrentSecondCount ⟨0, 3, false, true, false, 0⟩ = 0 :=
  ⟨C9_thm.1 4 4 ⟨0, 0, false, false, true, 0⟩ rfl,
   C9_thm.2.1 ⟨3, 0, true, false, false, 0⟩ rfl,
   C9_thm.2.2 ⟨0, 3, false, true, false, 0⟩ rfl⟩

/-- C1: the claim that the invocation starts by computing the budget
`min(batchSizeConfig, shortHeadroom, longHeadroom)`, claims at most that
many tasks, and on a budget ≤ 0 returns zero processed together with a
rate-limited flag, is false: with the minute window already at its ceiling
of 2 the budget is 0, yet both PENDING tasks are still claimed and the
immediate return carries no rate-limited field at all. -/
theorem C1_counterexample :
    min 2 (min (5 - (0 : Nat)) (2 - 2)) = 0 ∧
    (claimedTasks 2 dbTwoPlain).length = 2 ∧
    (handleTasks 2 5 envOk dbTwoPlain ⟨2, 0, false, false, false, 0⟩).2.2
      = { success := true, processed := 0, rateLimited := none,
          timestamp := some 7 } := by
  decide

/-- C1 (amended): the invocation claims up to `MAX_EMAILS_PER_MINUTE` (the
long-window ceiling, doubling as the batch size) oldest-first PENDING tasks
regardless of the current window counts; when the batch is non-empty and the
minute count has already reached the ceiling, the first loop iteration
returns immediately with zero processed, the stores untouched, a timestamp,
and no rate-limited field. -/
theorem C1_thm :
    (∀ (maxPerMinute : Nat) (db : DB),
      (claimedTasks maxPerMinute db).length ≤ maxPerMinute ∧
      ∀ t ∈ claimedTasks maxPerMinute db, t.status = .PENDING) ∧
    (∀ (maxPerMinute maxPerSecond : Nat) (env : Env) (db : DB) (r : Redis),
      (claimedTasks maxPerMinute db).isEmpty = false →
      r.getMinuteFails = false →
      maxPerMinute ≤ r.minuteCount →
      handleTasks maxPerMinute maxPerSecond env db r
        = (db, r, ⟨true, 0, none, some env.clock⟩)) := by
  constructor
  · intro maxPerMinute db
    constructor
    · simp [claimedTasks]
    · intro t ht
      have h1 : t ∈ (db.tasks.filter (fun t => t.status = .PENDING)).insertionSort
          (fun a b => a.createdAt ≤ b.createdAt) := List.mem_of_mem_take ht
      have h2 : t ∈ db.tasks.filter (fun t => t.status = .PENDING) :=
        (List.perm_insertionSort _ _).mem_iff.mp h1
      simpa using (List.mem_filter.mp h2).2
  · intro maxPerMinute maxPerSecond env db r hne hflag hle
    cases hcl : claimedTasks maxPerMinute db with
    | nil => rw [hcl] at hne; simp at hne
    | cons t rest =>
      have hmc : getCurrentMinuteCount r = r.minuteCount := by
        simp [getCurrentMinuteCount, rawGetMinute, hflag]
      simp [handleTasks, hcl, runLoop, dispatchOne, hmc, hle]

/-- C1 witness: the amended early-return clause applied at a concrete
two-task store whose minute window is exhausted. -/
theorem C1_witness :
    handleTasks 2 5 envOk dbTwoPlain ⟨2, 0, false, false, false, 0⟩
      = (dbTwoPlain, ⟨2, 0, false, false, false, 0⟩,
         { success := true, processed := 0, rateLimited := none,
           timestamp := some 7 }) :=
  C1_thm.2 2 5 envOk dbTwoPlain ⟨2, 0, false, false, false, 0⟩
    (by decide) rfl (by decide)

/-- C3: the claim that an invocation stopping on an exhausted rate budget
surfaces `rateLimited: true` is false: with ceiling 2 and one admission
already counted, the second task hits the ceiling and the invocation stops,
yet the response is `{success, processed: 1, timestamp}` with no
rate-limited field. -/
theorem C3_counterexample :
    (handleTasks 2 5 envOk dbTwoPlain ⟨1, 0, false, false, false, 0⟩).2.2
      = { success := true, processed := 1, rateLimited := none,
          timestamp := some 7 } ∧
    ¬ (handleTasks 2 5 envOk dbTwoPlain ⟨1, 0, false, false, false, 0⟩).2.2.rateLimited
      = some true := by
  decide

/-- C3 (amended): no dispatcher response ever contains a `rateLimited`
field; every response has `success: true`, carries a timestamp exactly when
the claimed batch was non-empty, and reports zero processed on an empty
batch — rate exhaustion is visible only through the processed count. -/
theorem C3_thm :
    ∀ (maxPerMinute maxPerSecond : Nat) (env : Env) (db : DB) (r : Redis),
      (handleTasks maxPerMinute maxPerSecond env db r).2.2.success = true ∧
      (handleTasks maxPerMinute maxPerSecond env db r).2.2.rateLimited = none ∧
      (handleTasks maxPerMinute maxPerSecond env db r).2.2.timestamp
        = (if (claimedTasks maxPerMinute db).isEmpty then none else some env.clock) ∧
      ((claimedTasks maxPerMinute db).isEmpty = true →
        (handleTasks maxPerMinute maxPerSecond env db r).2.2.processed = 0) := by
  intro maxPerMinute maxPerSecond env db r
  by_cases hc : (claimedTasks maxPerMinute db).isEmpty
  · simp [handleTasks, hc]
  · rcases hrl : runLoop maxPerMinute maxPerSecond env (claimedTasks maxPerMinute db)
      { db := db, redis := r, processed := 0, completedCampaignIds := [] } with ⟨st, early⟩
    simp only [handleTasks, Bool.not_eq_true] at hc ⊢
    rw [hc, hrl]
    cases early <;> simp [hc]

/-- C3 witness: the amended theorem applied at a concrete store with no
tasks. -/
theorem C3_witness :
    (handleTasks 3 5 envOk dbEmpty redisStart).2.2.rateLimited = none ∧
    (handleTasks 3 5 envOk dbEmpty redisStart).2.2.processed = 0 :=
  ⟨(C3_thm 3 5 envOk dbEmpty redisStart).2.1,
   (C3_thm 3 5 envOk dbEmpty redisStart).2.2.2 (by decide)⟩

/-- Helper: a first-match lookup by id commutes with a map that rewrites
only the row with that id and preserves ids. -/
theorem find?_id_map_update (cid : Nat) (g : Campaign → Campaign)
    (hg : ∀ x, ¬ x.id = cid → g x = x) (hgid : ∀ x, (g x).id = x.id) :
    ∀ (l : List Campaign) (c : Campaign),
      l.find? (fun x => x.id = cid) = some c →
      (l.map g).find? (fun x => x.id = cid) = some (g c) := by
  intro l
  induction l with
  | nil => intro c h; simp at h
  | cons x xs ih =>
    intro c h
    by_cases hx : x.id = cid
    · rw [List.find?_cons_of_pos _ (by simpa using hx)] at h
      injection h with h
      subst h
      rw [List.map_cons, List.find?_cons_of_pos _ (by simp [hgid, hx])]
    · rw [List.find?_cons_of_neg _ (by simpa using hx)] at h
      rw [List.map_cons, List.find?_cons_of_neg _ (by simp [hg x hx, hx])]
      exact ih c h

/-- Helper: the campaign `markDelivered` writes, as seen through the
first-match lookup. -/
theorem findCampaign_markDelivered (env : Env) (db : DB) (cid : Nat)
    (c : Campaign) (h : findCampaign db cid = some c) :
    findCampaign (markDelivered env db cid) cid
      = some { c with status := .DELIVERED, delivered := some env.clock } := by
  have hc : c.id = cid := by
    have := List.find?_some h
    simpa using this
  have := find?_id_map_update cid
    (fun x => if x.id = cid then { x with status := .DELIVERED, delivered := some env.clock } else x)
    (fun x hx => by simp [hx])
    (fun x => by by_cases hx : x.id = cid <;> simp [hx])
    db.campaigns c h
  simpa [findCampaign, markDelivered, hc] using this

/-- C6: `checkAndMarkCampaignsFinished` flips a campaign to DELIVERED, with
the clock as delivered timestamp, exactly when the campaign exists, is not
already DELIVERED, and has zero PENDING/PROCESSING tasks; a missing or
already-DELIVERED campaign is left untouched (status and timestamp
unchanged), and reconciling is idempotent, so the transition happens exactly
once. -/
theorem C6_thm :
    ∀ (env : Env) (db : DB) (cid : Nat),
      (∀ c, findCampaign db cid = some c → c.status = .DELIVERED →
        reconcileOne env db cid = db) ∧
      (∀ c, findCampaign db cid = some c → ¬ c.status = .DELIVERED →
        countPendingProcessing db cid = 0 →
        findCampaign (reconcileOne env db cid) cid
          = some { c with status := .DELIVERED, delivered := some env.clock }) ∧
      (∀ c, findCampaign db cid = some c → ¬ c.status = .DELIVERED →
        ¬ countPendingProcessing db cid = 0 →
        reconcileOne env db cid = db) ∧
      (findCampaign db cid = none → reconcileOne env db cid = db) ∧
      reconcileOne env (reconcileOne env db cid) cid = reconcileOne env db cid := by
  intro env db cid
  refine ⟨?_, ?_, ?_, ?_, ?_⟩
  · intro c hc hst
    simp [reconcileOne, hc, hst]
  · intro c hc hst hcount
    simp only [reconcileOne, hc, hst, hcount, if_false, if_true, if_pos rfl]
    exact findCampaign_markDelivered env db cid c hc
  · intro c hc hst hcount
    simp [reconcileOne, hc, hst, hcount]
  · intro hc
    simp [reconcileOne, hc]
  · match hc : findCampaign db cid with
    | none => simp [reconcileOne, hc]
    | some c =>
      by_cases hst : c.status = .DELIVERED
      · simp [reconcileOne, hc, hst]
      · by_cases hcount : countPendingProcessing db cid = 0
        · have h1 : reconcileOne env db cid = markDelivered env db cid := by
            simp [reconcileOne, hc, hst, hcount]
          have h2 := findCampaign_markDelivered env db cid c hc
          rw [h1]
          simp [reconcileOne, h2]
        · simp [reconcileOne, hc, hst, hcount]

/-- C6 witness: the set-to-DELIVERED clause of the theorem applied at a
concrete SENDING campaign with no outstanding tasks. -/
theorem C6_witness :
    findCampaign (reconcileOne envOk dbCamp 3) 3
      = some { campSending with status := .DELIVERED, delivered := some 7 } :=
  (C6_thm envOk dbCamp 3).2.1 campSending (by decide) (by decide) (by decide)



/-- Helper: the ok-case of a status write. -/
theorem updateTaskStatus_ok (db : DB) (id : Nat) (st : TaskStatus)
    (h : db.tasks.any (fun t => t.id = id) = true) :
    updateTaskStatus db id st = .ok (dbAfterSet db id st) := by
  simp [updateTaskStatus, h]

/-- Helper: the missing-row case of a status write. -/
theorem updateTaskStatus_err (db : DB) (id : Nat) (st : TaskStatus)
    (h : db.tasks.any (fun t => t.id = id) = false) :
    updateTaskStatus db id st = .error () := by
  simp [updateTaskStatus, h]

/-- Helper: a status write preserves which ids are present. -/
theorem any_id_map_set (l : List TaskRow) (i j : Nat) (st : TaskStatus) :
    (l.map (fun t => if t.id = i then { t with status := st } else t)).any
      (fun t => t.id = j) = l.any (fun t => t.id = j) := by
  induction l with
  | nil => rfl
  | cons x xs ih =>
    by_cases hx : x.id = i <;> simp [hx, ih]

/-- Helper: `dbAfterSet` preserves which ids are present. -/
theorem any_id_dbAfterSet (db : DB) (i j : Nat) (st : TaskStatus) :
    (dbAfterSet db i st).tasks.any (fun t => t.id = j)
      = db.tasks.any (fun t => t.id = j) :=
  any_id_map_set db.tasks i j st

/-- Helper: after a status write, every row carrying the written id holds
the written status. -/
theorem status_of_map_set (l : List TaskRow) (i : Nat) (st : TaskStatus) :
    ∀ u ∈ l.map (fun t => if t.id = i then { t with status := st } else t),
      u.id = i → u.status = st := by
  intro u hu hui
  rcases List.mem_map.mp hu with ⟨t, ht, rfl⟩
  by_cases hx : t.id = i
  · simp [hx]
  · simp only [if_neg hx] at hui ⊢
    exact absurd hui hx

/-- Helper: `processTask` on a suppressed action leaves the store
untouched. -/
theorem processTask_suppressed (env : Env) (db : DB) (task : TaskRow)
    (a : Action) (p : Project)
    (ha : task.action = some a)
    (hproj : findProject db task.contact.projectId = some p)
    (hsup : (a.notevents.any fun e =>
      (triggersFor db task.contact.id).any fun tr =>
        tr.1 = task.contact.id ∧ tr.2 = e.id) = true) :
    processTask env db task = (db, true) := by
  have hlen : 0 < a.notevents.length := by
    rcases List.any_eq_true.mp hsup with ⟨e, he, _⟩
    exact List.length_pos.mpr (List.ne_nil_of_mem he)
  simp only [processTask, hproj, ha]
  rw [if_pos ⟨hlen, hsup⟩]

/-- C7 (amended): provided the task's owning project still exists, a task
whose action has a suppression event that the contact already triggered is
dispatched with no mail-transport call and no email receipt, and every row
carrying its id ends in status COMPLETED. -/
theorem C7_thm :
    ∀ (env : Env) (db : DB) (task : TaskRow) (a : Action) (p : Project),
      task.action = some a →
      (a.notevents.any fun e =>
        (triggersFor db task.contact.id).any fun tr =>
          tr.1 = task.contact.id ∧ tr.2 = e.id) = true →
      findProject db task.contact.projectId = some p →
      db.tasks.any (fun t => t.id = task.id) = true →
      (processSingleTask env db task).2 = some true ∧
      (processSingleTask env db task).1.sends = db.sends ∧
      (processSingleTask env db task).1.emails = db.emails ∧
      (processSingleTask env db task).1.tasks.any (fun t => t.id = task.id) = true ∧
      (∀ u ∈ (processSingleTask env db task).1.tasks,
        u.id = task.id → u.status = .COMPLETED) := by
  intro env db task a p ha hsup hproj hany
  have h1 := updateTaskStatus_ok db task.id .PROCESSING hany
  have h2 : processTask env (dbAfterSet db task.id .PROCESSING) task
      = (dbAfterSet db task.id .PROCESSING, true) :=
    processTask_suppressed env _ task a p ha hproj hsup
  have hany1 : (dbAfterSet db task.id .PROCESSING).tasks.any
      (fun t => t.id = task.id) = true := by
    rw [any_id_dbAfterSet]
    exact hany
  have h3 := updateTaskStatus_ok (dbAfterSet db task.id .PROCESSING) task.id
    .COMPLETED hany1
  have hps : processSingleTask env db task
      = (dbAfterSet (dbAfterSet db task.id .PROCESSING) task.id .COMPLETED,
         some true) := by
    simp only [processSingleTask, h1, h2, h3]
    exact if_pos trivial
  refine ⟨?_, ?_, ?_, ?_, ?_⟩ <;> rw [hps]
  · rfl
  · rfl
  · rw [show (dbAfterSet (dbAfterSet db task.id .PROCESSING) task.id .COMPLETED, (some true : Option Bool)).1 = dbAfterSet (dbAfterSet db task.id .PROCESSING) task.id .COMPLETED from rfl,
      any_id_dbAfterSet, any_id_dbAfterSet]
    exact hany
  · show ∀ u ∈ (dbAfterSet db task.id .PROCESSING).tasks.map
        (fun t => if t.id = task.id then { t with status := TaskStatus.COMPLETED } else t),
      u.id = task.id → u.status = .COMPLETED
    exact status_of_map_set _ task.id .COMPLETED



/-- Helper: `processTask` on a task with neither action nor campaign
reference, existing project, and a working transport: one send with empty
subject/body/from, one receipt with neither origin id. -/
theorem processTask_noRefs (env : Env) (db : DB) (task : TaskRow) (p : Project)
    (ha : task.action = none) (hc : task.campaignId = none)
    (hproj : findProject db task.contact.projectId = some p)
    (hsend : env.sendFails task.id = false) :
    processTask env db task
      = ({ db with
          sends := db.sends ++ [⟨"", "", task.contact.email, "", "", false, false⟩],
          emails := db.emails ++ [⟨db.sends.length, task.contact.id, none, none⟩] },
         true) := by
  simp [processTask, hproj, ha, hc, sendAndRecord, hsend]



/-- C10: dispatching a claimed task whose action and campaign references
are both null, with its project live and the transport working, neither
fails nor skips: the transport is called once with empty subject, body and
from-address, one email receipt is recorded with neither an actionId nor a
campaignId, and the task is marked COMPLETED. -/
theorem C10_thm :
    ∀ (env : Env) (db : DB) (task : TaskRow) (p : Project),
      task.action = none → task.campaignId = none →
      findProject db task.contact.projectId = some p →
      db.tasks.any (fun t => t.id = task.id) = true →
      env.sendFails task.id = false →
      (processSingleTask env db task).2 = some true ∧
      (processSingleTask env db task).1.sends
        = db.sends ++ [⟨"", "", task.contact.email, "", "", false, false⟩] ∧
      (processSingleTask env db task).1.emails
        = db.emails ++ [⟨db.sends.length, task.contact.id, none, none⟩] ∧
      (∀ u ∈ (processSingleTask env db task).1.tasks,
        u.id = task.id → u.status = .COMPLETED) := by
  intro env db task p ha hc hproj hany hsend
  have h1 := updateTaskStatus_ok db task.id .PROCESSING hany
  have h2 := processTask_noRefs env (dbAfterSet db task.id .PROCESSING) task p
    ha hc hproj hsend
  have hany1 : ({ dbAfterSet db task.id .PROCESSING with
      sends := (dbAfterSet db task.id .PROCESSING).sends
        ++ [⟨"", "", task.contact.email, "", "", false, false⟩],
      emails := (dbAfterSet db task.id .PROCESSING).emails
        ++ [⟨(dbAfterSet db task.id .PROCESSING).sends.length, task.contact.id, none, none⟩] } : DB).tasks.any
      (fun t => t.id = task.id) = true := by
    show (dbAfterSet db task.id .PROCESSING).tasks.any (fun t => t.id = task.id) = true
    rw [any_id_dbAfterSet]
    exact hany
  have h3 := updateTaskStatus_ok _ task.id .COMPLETED hany1
  have hps : processSingleTask env db task
      = (dbAfterSet ({ dbAfterSet db task.id .PROCESSING with
          sends := (dbAfterSet db task.id .PROCESSING).sends
            ++ [⟨"", "", task.contact.email, "", "", false, false⟩],
          emails := (dbAfterSet db task.id .PROCESSING).emails
            ++ [⟨(dbAfterSet db task.id .PROCESSING).sends.length, task.contact.id, none, none⟩] } : DB)
          task.id .COMPLETED, some true) := by
    simp only [processSingleTask, h1, h2, h3]
    exact if_pos trivial
  refine ⟨?_, ?_, ?_, ?_⟩ <;> rw [hps]
  · rfl
  · rfl
  · show ∀ u ∈ ({ dbAfterSet db task.id .PROCESSING with
        sends := (dbAfterSet db task.id .PROCESSING).sends
          ++ [⟨"", "", task.contact.email, "", "", false, false⟩],
        emails := (dbAfterSet db task.id .PROCESSING).emails
          ++ [⟨(dbAfterSet db task.id .PROCESSING).sends.length, task.contact.id, none, none⟩] } : DB).tasks.map
        (fun t => if t.id = task.id then { t with status := TaskStatus.COMPLETED } else t),
      u.id = task.id → u.status = .COMPLETED
    exact status_of_map_set _ task.id .COMPLETED



/-- Helper: `processTask` on a vanished project takes the cleanup branch. -/
theorem processTask_vanished (env : Env) (db : DB) (task : TaskRow)
    (hproj : findProject db task.contact.projectId = none) :
    processTask env db task
      = (deleteProjectTasks (bulkFailProject db task.contact.projectId)
          task.contact.projectId, true) := by
  simp only [processTask, hproj]

/-- Helper: after deleting a project's tasks, no row of that project
remains, so an id carried only by that project's rows is gone. -/
theorem any_id_filter_out (l : List TaskRow) (i pid : Nat)
    (h : ∀ u ∈ l, u.id = i → u.contact.projectId = pid) :
    (l.filter (fun t => ¬ t.contact.projectId = pid)).any
      (fun t => t.id = i) = false := by
  rw [List.any_eq_false]
  intro u hu
  rcases List.mem_filter.mp hu with ⟨hul, hpid⟩
  simp only [decide_eq_true_eq] at hpid ⊢
  intro hid
  exact hpid (h u hul hid)

/-- Helper: a conditional status rewrite keeps id and contact. -/
theorem id_contact_of_map_status (l : List TaskRow)
    (C : TaskRow → Prop) [DecidablePred C] (s : TaskStatus) :
    ∀ u ∈ l.map (fun t => if C t then { t with status := s } else t),
      ∃ v ∈ l, u.id = v.id ∧ u.contact = v.contact := by
  intro u hu
  rcases List.mem_map.mp hu with ⟨v, hv, rfl⟩
  by_cases hc : C v <;> simp [hc] <;> exact ⟨v, hv, rfl, rfl⟩

/-- C8: when the owning project no longer exists, processing the task bulk
marks every PENDING sibling of that project FAILED and then deletes every
task of the project (the current one included), makes no transport call and
records no receipt, and the exception that follows keeps the dispatch loop
from counting the task in the invocation's processed total. -/
theorem C8_thm :
    (∀ (env : Env) (db : DB) (task : TaskRow),
      findProject db task.contact.projectId = none →
      db.tasks.any (fun t => t.id = task.id) = true →
      (∀ u ∈ db.tasks, u.id = task.id →
        u.contact.projectId = task.contact.projectId) →
      (processSingleTask env db task).2 = none ∧
      (processSingleTask env db task).1.sends = db.sends ∧
      (processSingleTask env db task).1.emails = db.emails ∧
      (∀ u ∈ db.tasks, u.contact.projectId = task.contact.projectId →
        u.status = .PENDING → ¬ u.id = task.id →
        (⟨u.id, .PENDING, .FAILED⟩ : StatusUpdate)
          ∈ (processSingleTask env db task).1.updates) ∧
      (∀ u ∈ (processSingleTask env db task).1.tasks,
        ¬ u.contact.projectId = task.contact.projectId)) ∧
    (∀ (maxPerMinute maxPerSecond : Nat) (env : Env) (st : LoopState)
        (task : TaskRow),
      (processSingleTask env st.db task).2 = none →
      (dispatchOne maxPerMinute maxPerSecond env st task).1.processed
        = st.processed) := by
  constructor
  · intro env db task hproj hany hrow
    have h1 := updateTaskStatus_ok db task.id .PROCESSING hany
    have h2 : processTask env (dbAfterSet db task.id .PROCESSING) task
        = (deleteProjectTasks
            (bulkFailProject (dbAfterSet db task.id .PROCESSING)
              task.contact.projectId) task.contact.projectId, true) :=
      processTask_vanished env _ task hproj
    have hrow1 : ∀ u ∈ (bulkFailProject (dbAfterSet db task.id .PROCESSING)
        task.contact.projectId).tasks,
        u.id = task.id → u.contact.projectId = task.contact.projectId := by
      intro u hu hid
      rcases id_contact_of_map_status _ _ _ u hu with ⟨v, hv, hvid, hvc⟩
      rcases id_contact_of_map_status _ _ _ v hv with ⟨w, hw, hwid, hwc⟩
      rw [hvc, hwc]
      exact hrow w hw (by rw [← hwid, ← hvid]; exact hid)
    have hnone2 : (deleteProjectTasks
        (bulkFailProject (dbAfterSet db task.id .PROCESSING)
          task.contact.projectId) task.contact.projectId).tasks.any
        (fun t => t.id = task.id) = false :=
      any_id_filter_out _ task.id task.contact.projectId hrow1
    have h3 := updateTaskStatus_err _ task.id .COMPLETED hnone2
    have h4 := updateTaskStatus_err _ task.id .FAILED hnone2
    have hps : processSingleTask env db task
        = (deleteProjectTasks
            (bulkFailProject (dbAfterSet db task.id .PROCESSING)
              task.contact.projectId) task.contact.projectId, none) := by
      simp only [processSingleTask, h1, h2, h3, h4]
      exact if_pos trivial
    refine ⟨?_, ?_, ?_, ?_, ?_⟩ <;> rw [hps]
    · rfl
    · rfl
    · intro u hu hupid hust huid
      show _ ∈ (bulkFailProject (dbAfterSet db task.id .PROCESSING)
        task.contact.projectId).updates
      apply List.mem_append.mpr
      right
      refine List.mem_map.mpr ⟨u, ?_, ?_⟩
      · refine List.mem_filter.mpr ⟨?_, by simp [hupid, hust]⟩
        refine List.mem_map.mpr ⟨u, hu, ?_⟩
        simp [huid]
      · rw [hust]
    · intro u hu
      rcases List.mem_filter.mp hu with ⟨_, hpid⟩
      simpa using hpid
  · intro maxPerMinute maxPerSecond env st task h
    unfold dispatchOne
    split
    · rfl
    · rcases hr : reserveLoop maxPerMinute maxPerSecond reserveFuel st.redis 0
        with ⟨r', o⟩
      rcases hq : processSingleTask env st.db task with ⟨db', res⟩
      rw [hq] at h
      simp only at h
      subst h
      cases o <;> simp [hr, hq]



/-- Helper: a reservation attempt never decreases the reservation count. -/
theorem canSendEmail_reservations (m s : Nat) (r : Redis) :
    r.reservations ≤ (canSendEmail m s r).2.reservations := by
  simp only [canSendEmail]
  split_ifs <;> simp [incrBoth]

/-- Helper: a successful reservation attempt increments the count. -/
theorem canSendEmail_true_reservations (m s : Nat) (r : Redis)
    (h : (canSendEmail m s r).1 = true) :
    r.reservations + 1 ≤ (canSendEmail m s r).2.reservations := by
  simp only [canSendEmail] at h ⊢
  split_ifs at h ⊢
  simp_all [incrBoth]

/-- Helper: the admission loop never decreases the reservation count, and a
reserved outcome accounts for at least one successful reservation. -/
theorem reserveLoop_reservations (m s : Nat) :
    ∀ (fuel : Nat) (r : Redis) (k : Nat),
      r.reservations ≤ (reserveLoop m s fuel r k).1.reservations ∧
      ((reserveLoop m s fuel r k).2 = .reserved →
        r.reservations + 1 ≤ (reserveLoop m s fuel r k).1.reservations) := by
  intro fuel
  induction fuel with
  | zero => intro r k; simp [reserveLoop]
  | succ n ih =>
    intro r k
    simp only [reserveLoop]
    split_ifs with h1 h2 h3 h4
    · simp
    · simp
    · simpa [sleepSecond] using ih (sleepSecond r) k
    · have hone := canSendEmail_true_reservations m s r h4
      exact ⟨le_trans (Nat.le_succ _) hone, fun _ => hone⟩
    · have hle := canSendEmail_reservations m s r
      have hrest := ih (canSendEmail m s r).2 (k + 1)
      exact ⟨le_trans hle hrest.1,
        fun hres => le_trans (Nat.add_le_add_right hle 1) (hrest.2 hres)⟩



/-- Helper: a status write only ever returns the logged-write store. -/
theorem updateTaskStatus_ok_inv (db : DB) (i : Nat) (st : TaskStatus) (d : DB)
    (h : updateTaskStatus db i st = .ok d) : d = dbAfterSet db i st := by
  unfold updateTaskStatus at h
  split_ifs at h
  exact (Except.ok.injEq _ _).mp h.symm

/-- Helper: `processTask` makes at most one mail-transport call. -/
theorem processTask_sends_le (env : Env) (db : DB) (task : TaskRow) :
    (processTask env db task).1.sends.length ≤ db.sends.length + 1 := by
  unfold processTask
  split
  · exact Nat.le_succ _
  · dsimp only
    split
    · split
      · exact Nat.le_succ _
      · simp only [sendAndRecord]
        split_ifs <;> simp
    · split
      · simp only [sendAndRecord]
        split_ifs <;> simp
      · simp only [sendAndRecord]
        split_ifs <;> simp

/-- Helper: `processSingleTask` makes at most one mail-transport call. -/
theorem processSingleTask_sends_le (env : Env) (db : DB) (task : TaskRow) :
    (processSingleTask env db task).1.sends.length ≤ db.sends.length + 1 := by
  unfold processSingleTask
  rcases h1 : updateTaskStatus db task.id .PROCESSING with e | db1
  · rcases h2 : updateTaskStatus db task.id .FAILED with e2 | db2
    · exact Nat.le_succ _
    · rw [updateTaskStatus_ok_inv db task.id .FAILED db2 h2]
      exact Nat.le_succ _
  · have hdb1 : db1 = dbAfterSet db task.id .PROCESSING :=
      updateTaskStatus_ok_inv db task.id .PROCESSING db1 h1
    have hpt := processTask_sends_le env db1 task
    rcases hq : processTask env db1 task with ⟨db2, ok⟩
    rw [hq] at hpt
    have hsends1 : db1.sends = db.sends := by rw [hdb1]; rfl
    rw [hsends1] at hpt
    simp only [hq]
    cases ok
    · simp only [Bool.false_eq_true, if_false]
      rcases h3 : updateTaskStatus db2 task.id .FAILED with e3 | db3
      · exact hpt
      · rw [updateTaskStatus_ok_inv db2 task.id .FAILED db3 h3]
        exact hpt
    · simp only [if_true]
      rcases h3 : updateTaskStatus db2 task.id .COMPLETED with e3 | db3
      · rcases h4 : updateTaskStatus db2 task.id .FAILED with e4 | db4
        · exact hpt
        · rw [updateTaskStatus_ok_inv db2 task.id .FAILED db4 h4]
          exact hpt
      · rw [updateTaskStatus_ok_inv db2 task.id .COMPLETED db3 h3]
        exact hpt



/-- Helper: per loop iteration, new transport calls are covered by new
successful reservations. -/
theorem dispatchOne_sends_le (maxPerMinute maxPerSecond : Nat) (env : Env)
    (st : LoopState) (task : TaskRow) :
    (dispatchOne maxPerMinute maxPerSecond env st task).1.db.sends.length
        + st.redis.reservations
      ≤ st.db.sends.length
        + (dispatchOne maxPerMinute maxPerSecond env st task).1.redis.reservations := by
  unfold dispatchOne
  split
  · simp
  · have hres := reserveLoop_reservations maxPerMinute maxPerSecond
      reserveFuel st.redis 0
    rcases hr : reserveLoop maxPerMinute maxPerSecond reserveFuel st.redis 0
      with ⟨r', o⟩
    rw [hr] at hres
    cases o
    · simpa using hres.1
    · rcases hq : processSingleTask env st.db task with ⟨db', res⟩
      have hs := processSingleTask_sends_le env st.db task
      rw [hq] at hs
      dsimp only at hs hres
      have h1 : st.redis.reservations + 1 ≤ r'.reservations := hres.2 rfl
      cases res <;> dsimp only <;> omega
    · simpa using hres.1

/-- Helper: over the whole batch, transport calls are covered by successful
reservations. -/
theorem runLoop_sends_le (maxPerMinute maxPerSecond : Nat) (env : Env) :
    ∀ (ts : List TaskRow) (st : LoopState),
      (runLoop maxPerMinute maxPerSecond env ts st).1.db.sends.length
          + st.redis.reservations
        ≤ st.db.sends.length
          + (runLoop maxPerMinute maxPerSecond env ts st).1.redis.reservations := by
  intro ts
  induction ts with
  | nil => intro st; simp [runLoop]
  | cons t rest ih =>
    intro st
    simp only [runLoop]
    rcases hd : dispatchOne maxPerMinute maxPerSecond env st t with ⟨st', early⟩
    have h1 := dispatchOne_sends_le maxPerMinute maxPerSecond env st t
    rw [hd] at h1
    dsimp only at h1
    cases early
    · simp only [Bool.false_eq_true, if_false]
      have h2 := ih st'
      omega
    · simpa using h1

/-- Helper: campaign reconciliation never touches the send log. -/
theorem reconcileOne_sends (env : Env) (db : DB) (cid : Nat) :
    (reconcileOne env db cid).sends = db.sends := by
  unfold reconcileOne
  split
  · rfl
  · split_ifs <;> rfl

/-- Helper: reconciliation of any id set never touches the send log. -/
theorem checkAndMark_sends (env : Env) :
    ∀ (ids : List Nat) (db : DB),
      (checkAndMarkCampaignsFinished env db ids).sends = db.sends := by
  intro ids
  induction ids with
  | nil => intro db; rfl
  | cons i rest ih =>
    intro db
    show (checkAndMarkCampaignsFinished env (reconcileOne env db i) rest).sends
      = db.sends
    rw [ih (reconcileOne env db i), reconcileOne_sends]



/-- C2: a send attempt happens only on a slot obtained from the rate
limiter — over a whole invocation, the number of transport calls never
exceeds the number of successful reservations — and when the admission loop
fails to obtain a slot the iteration skips the task, leaving the store (and
hence the task's PENDING status) completely untouched and the processed
count unchanged. -/
theorem C2_thm :
    (∀ (maxPerMinute maxPerSecond : Nat) (env : Env) (st : LoopState)
        (task : TaskRow) (r' : Redis),
      reserveLoop maxPerMinute maxPerSecond reserveFuel st.redis 0
        = (r', .skipped) →
      (dispatchOne maxPerMinute maxPerSecond env st task).1.db = st.db ∧
      (dispatchOne maxPerMinute maxPerSecond env st task).1.processed
        = st.processed) ∧
    (∀ (maxPerMinute maxPerSecond : Nat) (env : Env) (db : DB) (r : Redis),
      (handleTasks maxPerMinute maxPerSecond env db r).1.sends.length
          + r.reservations
        ≤ db.sends.length
          + (handleTasks maxPerMinute maxPerSecond env db r).2.1.reservations) := by
  constructor
  · intro maxPerMinute maxPerSecond env st task r' h
    unfold dispatchOne
    split
    · exact ⟨rfl, rfl⟩
    · rw [h]
      exact ⟨rfl, rfl⟩
  · intro maxPerMinute maxPerSecond env db r
    by_cases hc : (claimedTasks maxPerMinute db).isEmpty
    · simp [handleTasks, hc]
    · simp only [Bool.not_eq_true] at hc
      rcases hrl : runLoop maxPerMinute maxPerSecond env
        (claimedTasks maxPerMinute db)
        { db := db, redis := r, processed := 0, completedCampaignIds := [] }
        with ⟨st, early⟩
      have h1 := runLoop_sends_le maxPerMinute maxPerSecond env
        (claimedTasks maxPerMinute db)
        { db := db, redis := r, processed := 0, completedCampaignIds := [] }
      rw [hrl] at h1
      dsimp only at h1
      simp only [handleTasks, hc, Bool.false_eq_true, if_false, hrl]
      cases early
      · simp only [Bool.false_eq_true, if_false]
        rw [checkAndMark_sends]
        exact h1
      · simp only [if_true]
        exact h1



/-- Helper: a failing status write means no row carries the id. -/
theorem updateTaskStatus_err_inv (db : DB) (i : Nat) (st : TaskStatus)
    (e : Unit) (h : updateTaskStatus db i st = .error e) :
    db.tasks.any (fun t => t.id = i) = false := by
  unfold updateTaskStatus at h
  split_ifs at h with hc
  simpa using hc

/-- Helper: where the entries of a status write come from. -/
theorem updates_dbAfterSet_mem (db : DB) (i : Nat) (st : TaskStatus) :
    ∀ u ∈ (dbAfterSet db i st).updates,
      u ∈ db.updates ∨ ∃ t ∈ db.tasks, t.id = i ∧ u = ⟨i, t.status, st⟩ := by
  intro u hu
  rcases List.mem_append.mp hu with h | h
  · exact Or.inl h
  · right
    rcases List.mem_map.mp h with ⟨t, ht, rfl⟩
    rcases List.mem_filter.mp ht with ⟨htl, hid⟩
    exact ⟨t, htl, by simpa using hid, rfl⟩

/-- Helper: rows not carrying the written id survive a status write
unchanged. -/
theorem tasks_dbAfterSet_mem (db : DB) (i : Nat) (st : TaskStatus) :
    ∀ row ∈ (dbAfterSet db i st).tasks, ¬ row.id = i → row ∈ db.tasks := by
  intro row hrow hid
  rcases List.mem_map.mp hrow with ⟨t, ht, rfl⟩
  by_cases hx : t.id = i
  · simp only [if_pos hx] at hid
    exact absurd hx hid
  · simpa [if_neg hx] using ht

/-- Helper: where the entries of the bulk PENDING-to-FAILED write come
from. -/
theorem updates_bulkFail_mem (db : DB) (pid : Nat) :
    ∀ u ∈ (bulkFailProject db pid).updates,
      u ∈ db.updates ∨
        ∃ t ∈ db.tasks, t.status = .PENDING ∧ u = ⟨t.id, .PENDING, .FAILED⟩ := by
  intro u hu
  rcases List.mem_append.mp hu with h | h
  · exact Or.inl h
  · right
    rcases List.mem_map.mp h with ⟨t, ht, rfl⟩
    rcases List.mem_filter.mp ht with ⟨htl, hcond⟩
    simp only [decide_eq_true_eq] at hcond
    exact ⟨t, htl, hcond.2, by rw [hcond.2]⟩

/-- Helper: a surviving row of the vanished-project cleanup was present,
unchanged, before the cleanup. -/
theorem tasks_cleanup_mem (db : DB) (pid : Nat) :
    ∀ row ∈ (deleteProjectTasks (bulkFailProject db pid) pid).tasks,
      row ∈ db.tasks := by
  intro row hrow
  rcases List.mem_filter.mp hrow with ⟨hmem, hpid⟩
  simp only [decide_eq_true_eq] at hpid
  rcases List.mem_map.mp hmem with ⟨t, ht, rfl⟩
  by_cases hc : t.contact.projectId = pid ∧ t.status = .PENDING
  · rw [if_pos hc] at hpid ⊢
    exact absurd hc.1 hpid
  · rwa [if_neg hc]

/-- Helper: `findProject` only reads the project table. -/
theorem findProject_congr (d1 d2 : DB) (pid : Nat)
    (h : d1.projects = d2.projects) : findProject d1 pid = findProject d2 pid := by
  unfold findProject
  rw [h]

/-- Helper: on a live project, `processTask` touches only the send and
receipt logs. -/
theorem processTask_some_project (env : Env) (db : DB) (task : TaskRow)
    (p : Project) (hproj : findProject db task.contact.projectId = some p) :
    (processTask env db task).1.updates = db.updates ∧
    (processTask env db task).1.tasks = db.tasks ∧
    (processTask env db task).1.projects = db.projects := by
  unfold processTask
  rw [hproj]
  dsimp only
  split
  · split
    · exact ⟨rfl, rfl, rfl⟩
    · simp only [sendAndRecord]
      split_ifs <;> exact ⟨rfl, rfl, rfl⟩
  · split
    · simp only [sendAndRecord]
      split_ifs <;> exact ⟨rfl, rfl, rfl⟩
    · simp only [sendAndRecord]
      split_ifs <;> exact ⟨rfl, rfl, rfl⟩



/-- Helper: one `processSingleTask` call, started while every row carrying
the task's id is PENDING, only ever logs forward transitions (and only the
three strict ones when the project is live), only rewrites rows carrying the
task's id, and leaves the project table alone. -/
theorem processSingleTask_step (env : Env) (db : DB) (task : TaskRow)
    (hrow : ∀ row ∈ db.tasks, row.id = task.id → row.status = .PENDING) :
    (∀ u ∈ (processSingleTask env db task).1.updates,
      u ∈ db.updates ∨ allowedUpdate u) ∧
    (¬ findProject db task.contact.projectId = none →
      ∀ u ∈ (processSingleTask env db task).1.updates,
        u ∈ db.updates ∨ strictUpdate u) ∧
    (∀ row ∈ (processSingleTask env db task).1.tasks,
      ¬ row.id = task.id → row ∈ db.tasks) ∧
    (processSingleTask env db task).1.projects = db.projects := by
  rcases h1 : updateTaskStatus db task.id .PROCESSING with e | db1
  · have hno := updateTaskStatus_err_inv db task.id .PROCESSING e h1
    have h2 : updateTaskStatus db task.id .FAILED = .error () :=
      updateTaskStatus_err db task.id .FAILED hno
    have hfin : processSingleTask env db task = (db, none) := by
      simp only [processSingleTask, h1, h2]
    rw [hfin]
    exact ⟨fun u hu => Or.inl hu, fun _ u hu => Or.inl hu,
      fun row hr _ => hr, rfl⟩
  · have hdb1 : db1 = dbAfterSet db task.id .PROCESSING :=
      updateTaskStatus_ok_inv db task.id .PROCESSING db1 h1
    subst hdb1
    have F1 : ∀ u ∈ (dbAfterSet db task.id .PROCESSING).updates,
        u ∈ db.updates ∨ (u.oldStatus = .PENDING ∧ u.newStatus = .PROCESSING) := by
      intro u hu
      rcases updates_dbAfterSet_mem db task.id .PROCESSING u hu with h | ⟨t, ht, hid, rfl⟩
      · exact Or.inl h
      · exact Or.inr ⟨hrow t ht hid, rfl⟩
    have F2 := tasks_dbAfterSet_mem db task.id .PROCESSING
    have F3 : ∀ row ∈ (dbAfterSet db task.id .PROCESSING).tasks,
        row.id = task.id → row.status = .PROCESSING :=
      status_of_map_set db.tasks task.id .PROCESSING
    rcases hproj : findProject db task.contact.projectId with _ | p
    · have hpt : processTask env (dbAfterSet db task.id .PROCESSING) task
          = (deleteProjectTasks
              (bulkFailProject (dbAfterSet db task.id .PROCESSING)
                task.contact.projectId) task.contact.projectId, true) :=
        processTask_vanished env _ task hproj
      have G1 : ∀ u ∈ (deleteProjectTasks
          (bulkFailProject (dbAfterSet db task.id .PROCESSING)
            task.contact.projectId) task.contact.projectId).updates,
          u ∈ db.updates ∨ allowedUpdate u := by
        intro u hu
        rcases updates_bulkFail_mem (dbAfterSet db task.id .PROCESSING)
            task.contact.projectId u hu with h | ⟨t, ht, hst, rfl⟩
        · rcases F1 u h with h' | h'
          · exact Or.inl h'
          · exact Or.inr (Or.inl h')
        · exact Or.inr (Or.inr (Or.inr (Or.inr ⟨rfl, rfl⟩)))
      have Grow := tasks_cleanup_mem (dbAfterSet db task.id .PROCESSING)
        task.contact.projectId
      have G3 : ∀ row ∈ (deleteProjectTasks
          (bulkFailProject (dbAfterSet db task.id .PROCESSING)
            task.contact.projectId) task.contact.projectId).tasks,
          row.id = task.id → row.status = .PROCESSING :=
        fun row hr hid => F3 row (Grow row hr) hid
      rcases h3 : updateTaskStatus (deleteProjectTasks
          (bulkFailProject (dbAfterSet db task.id .PROCESSING)
            task.contact.projectId) task.contact.projectId) task.id .COMPLETED
          with e3 | db3
      · have hno3 := updateTaskStatus_err_inv _ task.id .COMPLETED e3 h3
        have h4 : updateTaskStatus (deleteProjectTasks
            (bulkFailProject (dbAfterSet db task.id .PROCESSING)
              task.contact.projectId) task.contact.projectId) task.id .FAILED
            = .error () :=
          updateTaskStatus_err _ task.id .FAILED hno3
        have hfin : processSingleTask env db task
            = (deleteProjectTasks
                (bulkFailProject (dbAfterSet db task.id .PROCESSING)
                  task.contact.projectId) task.contact.projectId, none) := by
          simp only [processSingleTask, h1, hpt, h3, h4]
          exact if_pos trivial
        rw [hfin]
        refine ⟨G1, fun hcontra => absurd rfl hcontra, ?_, rfl⟩
        intro row hr hid
        exact F2 row (Grow row hr) hid
      · have hdb3 := updateTaskStatus_ok_inv _ task.id .COMPLETED db3 h3
        subst hdb3
        have hfin : processSingleTask env db task
            = (dbAfterSet (deleteProjectTasks
                (bulkFailProject (dbAfterSet db task.id .PROCESSING)
                  task.contact.projectId) task.contact.projectId)
                task.id .COMPLETED, some true) := by
          simp only [processSingleTask, h1, hpt, h3]
          exact if_pos trivial
        rw [hfin]
        refine ⟨?_, fun hcontra => absurd rfl hcontra, ?_, rfl⟩
        · intro u hu
          rcases updates_dbAfterSet_mem _ task.id .COMPLETED u hu
            with h | ⟨t, ht, hid, rfl⟩
          · exact G1 u h
          · exact Or.inr (Or.inr (Or.inl ⟨G3 t ht hid, rfl⟩))
        · intro row hr hid
          exact F2 row (Grow row (tasks_dbAfterSet_mem _ task.id .COMPLETED row hr hid)) hid
    · have hps := processTask_some_project env
        (dbAfterSet db task.id .PROCESSING) task p hproj
      rcases hq : processTask env (dbAfterSet db task.id .PROCESSING) task
        with ⟨db2, ok2⟩
      rw [hq] at hps
      dsimp only at hps
      rcases hps with ⟨hpu, hptk, hpp⟩
      have H1 : ∀ u ∈ db2.updates, u ∈ db.updates ∨
          (u.oldStatus = .PENDING ∧ u.newStatus = .PROCESSING) := by
        rw [hpu]; exact F1
      have H3 : ∀ row ∈ db2.tasks, row.id = task.id → row.status = .PROCESSING := by
        rw [hptk]; exact F3
      have H2 : ∀ row ∈ db2.tasks, ¬ row.id = task.id → row ∈ db.tasks := by
        rw [hptk]; exact F2
      have hpp' : db2.projects = db.projects := by
        rw [hpp]; rfl
      cases ok2
      · rcases h3 : updateTaskStatus db2 task.id .FAILED with e3 | db3
        · have hfin : processSingleTask env db task = (db2, none) := by
            simp only [processSingleTask, h1, hq, Bool.false_eq_true, if_false, h3]
          rw [hfin]
          exact ⟨fun u hu => (H1 u hu).imp id (fun h => Or.inl h),
            fun _ u hu => (H1 u hu).imp id (fun h => Or.inl h),
            H2, hpp'⟩
        · have hdb3 := updateTaskStatus_ok_inv _ task.id .FAILED db3 h3
          subst hdb3
          have hfin : processSingleTask env db task
              = (dbAfterSet db2 task.id .FAILED, some false) := by
            simp only [processSingleTask, h1, hq, Bool.false_eq_true, if_false, h3]
          rw [hfin]
          refine ⟨?_, ?_, ?_, hpp'⟩
          · intro u hu
            rcases updates_dbAfterSet_mem _ task.id .FAILED u hu
              with h | ⟨t, ht, hid, rfl⟩
            · exact (H1 u h).imp id (fun h' => Or.inl h')
            · exact Or.inr (Or.inr (Or.inr (Or.inl ⟨H3 t ht hid, rfl⟩)))
          · intro _ u hu
            rcases updates_dbAfterSet_mem _ task.id .FAILED u hu
              with h | ⟨t, ht, hid, rfl⟩
            · exact (H1 u h).imp id (fun h' => Or.inl h')
            · exact Or.inr (Or.inr (Or.inr ⟨H3 t ht hid, rfl⟩))
          · intro row hr hid
            exact H2 row (tasks_dbAfterSet_mem _ task.id .FAILED row hr hid) hid
      · rcases h3 : updateTaskStatus db2 task.id .COMPLETED with e3 | db3
        · have hno3 := updateTaskStatus_err_inv _ task.id .COMPLETED e3 h3
          have h4 : updateTaskStatus db2 task.id .FAILED = .error () :=
            updateTaskStatus_err _ task.id .FAILED hno3
          have hfin : processSingleTask env db task = (db2, none) := by
            simp only [processSingleTask, h1, hq, h3, h4]
            exact if_pos trivial
          rw [hfin]
          exact ⟨fun u hu => (H1 u hu).imp id (fun h => Or.inl h),
            fun _ u hu => (H1 u hu).imp id (fun h => Or.inl h),
            H2, hpp'⟩
        · have hdb3 := updateTaskStatus_ok_inv _ task.id .COMPLETED db3 h3
          subst hdb3
          have hfin : processSingleTask env db task
              = (dbAfterSet db2 task.id .COMPLETED, some true) := by
            simp only [processSingleTask, h1, hq, h3]
            exact if_pos trivial
          rw [hfin]
          refine ⟨?_, ?_, ?_, hpp'⟩
          · intro u hu
            rcases updates_dbAfterSet_mem _ task.id .COMPLETED u hu
              with h | ⟨t, ht, hid, rfl⟩
            · exact (H1 u h).imp id (fun h' => Or.inl h')
            · exact Or.inr (Or.inr (Or.inl ⟨H3 t ht hid, rfl⟩))
          · intro _ u hu
            rcases updates_dbAfterSet_mem _ task.id .COMPLETED u hu
              with h | ⟨t, ht, hid, rfl⟩
            · exact (H1 u h).imp id (fun h' => Or.inl h')
            · exact Or.inr (Or.inr (Or.inl ⟨H3 t ht hid, rfl⟩))
          · intro row hr hid
            exact H2 row (tasks_dbAfterSet_mem _ task.id .COMPLETED row hr hid) hid



/-- Helper: `processTask` never touches the project table. -/
theorem processTask_projects (env : Env) (db : DB) (task : TaskRow) :
    (processTask env db task).1.projects = db.projects := by
  unfold processTask
  split
  · rfl
  · dsimp only
    split
    · split
      · rfl
      · simp only [sendAndRecord]
        split_ifs <;> rfl
    · split
      · simp only [sendAndRecord]
        split_ifs <;> rfl
      · simp only [sendAndRecord]
        split_ifs <;> rfl

/-- Helper: `processSingleTask` never touches the project table. -/
theorem processSingleTask_projects (env : Env) (db : DB) (task : TaskRow) :
    (processSingleTask env db task).1.projects = db.projects := by
  unfold processSingleTask
  rcases h1 : updateTaskStatus db task.id .PROCESSING with e | db1
  · rcases h2 : updateTaskStatus db task.id .FAILED with e2 | db2
    · rfl
    · rw [updateTaskStatus_ok_inv _ _ _ _ h2]
      rfl
  · have hdb1 := updateTaskStatus_ok_inv _ _ _ _ h1
    have hpt := processTask_projects env db1 task
    rcases hq : processTask env db1 task with ⟨db2, ok⟩
    rw [hq] at hpt
    dsimp only at hpt
    have hp1 : db2.projects = db.projects := by
      rw [hpt, hdb1]
      rfl
    simp only [hq]
    cases ok
    · simp only [Bool.false_eq_true, if_false]
      rcases h3 : updateTaskStatus db2 task.id .FAILED with e3 | db3
      · exact hp1
      · rw [updateTaskStatus_ok_inv _ _ _ _ h3]
        exact hp1
    · simp only [if_true]
      rcases h3 : updateTaskStatus db2 task.id .COMPLETED with e3 | db3
      · rcases h4 : updateTaskStatus db2 task.id .FAILED with e4 | db4
        · exact hp1
        · rw [updateTaskStatus_ok_inv _ _ _ _ h4]
          exact hp1
      · rw [updateTaskStatus_ok_inv _ _ _ _ h3]
        exact hp1

/-- Helper: one dispatch iteration either leaves the store alone or hands it
to `processSingleTask`. -/
theorem dispatchOne_db (maxPerMinute maxPerSecond : Nat) (env : Env)
    (st : LoopState) (task : TaskRow) :
    (dispatchOne maxPerMinute maxPerSecond env st task).1.db = st.db ∨
    (dispatchOne maxPerMinute maxPerSecond env st task).1.db
      = (processSingleTask env st.db task).1 := by
  unfold dispatchOne
  split
  · exact Or.inl rfl
  · rcases hr : reserveLoop maxPerMinute maxPerSecond reserveFuel st.redis 0
      with ⟨r', o⟩
    cases o
    · exact Or.inl rfl
    · rcases hq : processSingleTask env st.db task with ⟨db', res⟩
      cases res
      · exact Or.inr rfl
      · exact Or.inr rfl
    · exact Or.inl rfl

/-- Helper: campaign reconciliation never touches the status log. -/
theorem reconcileOne_updates (env : Env) (db : DB) (cid : Nat) :
    (reconcileOne env db cid).updates = db.updates := by
  unfold reconcileOne
  split
  · rfl
  · split_ifs <;> rfl

/-- Helper: reconciliation of any id set never touches the status log. -/
theorem checkAndMark_updates (env : Env) :
    ∀ (ids : List Nat) (db : DB),
      (checkAndMarkCampaignsFinished env db ids).updates = db.updates := by
  intro ids
  induction ids with
  | nil => intro db; rfl
  | cons i rest ih =>
    intro db
    show (checkAndMarkCampaignsFinished env (reconcileOne env db i) rest).updates
      = db.updates
    rw [ih (reconcileOne env db i), reconcileOne_updates]



/-- Helper: over the dispatch loop, every logged transition is forward, and
with all claimed tasks' projects live, every logged transition is one of the
three strict steps. -/
theorem runLoop_updates (maxPerMinute maxPerSecond : Nat) (env : Env) :
    ∀ (ts : List TaskRow) (st : LoopState),
      (∀ t ∈ ts, ∀ row ∈ st.db.tasks, row.id = t.id → row.status = .PENDING) →
      (ts.map (fun t => t.id)).Nodup →
      ((∀ u ∈ st.db.updates, allowedUpdate u) →
        ∀ u ∈ (runLoop maxPerMinute maxPerSecond env ts st).1.db.updates,
          allowedUpdate u) ∧
      (((∀ t ∈ ts, ¬ findProject st.db t.contact.projectId = none) ∧
        (∀ u ∈ st.db.updates, strictUpdate u)) →
        ∀ u ∈ (runLoop maxPerMinute maxPerSecond env ts st).1.db.updates,
          strictUpdate u) := by
  intro ts
  induction ts with
  | nil =>
    intro st _ _
    exact ⟨fun h => h, fun h => h.2⟩
  | cons t rest ih =>
    intro st hpend hnodup
    rcases hd : dispatchOne maxPerMinute maxPerSecond env st t with ⟨st', early⟩
    have hdb := dispatchOne_db maxPerMinute maxPerSecond env st t
    rw [hd] at hdb
    dsimp only at hdb
    have hstep := processSingleTask_step env st.db t
      (hpend t (List.mem_cons_self t rest))
    have hup_all : ∀ u ∈ st'.db.updates, u ∈ st.db.updates ∨ allowedUpdate u := by
      rcases hdb with h | h
      · rw [h]
        exact fun u hu => Or.inl hu
      · rw [h]
        exact hstep.1
    have hup_str : ¬ findProject st.db t.contact.projectId = none →
        ∀ u ∈ st'.db.updates, u ∈ st.db.updates ∨ strictUpdate u := by
      intro hpr
      rcases hdb with h | h
      · rw [h]
        exact fun u hu => Or.inl hu
      · rw [h]
        exact hstep.2.1 hpr
    have hrow' : ∀ row ∈ st'.db.tasks, ¬ row.id = t.id → row ∈ st.db.tasks := by
      rcases hdb with h | h
      · rw [h]
        exact fun row hr _ => hr
      · rw [h]
        exact hstep.2.2.1
    have hproj' : st'.db.projects = st.db.projects := by
      rcases hdb with h | h
      · rw [h]
      · rw [h]
        exact hstep.2.2.2
    have hpend' : ∀ t' ∈ rest, ∀ row ∈ st'.db.tasks,
        row.id = t'.id → row.status = .PENDING := by
      intro t' ht' row hr hid
      have hne : ¬ row.id = t.id := by
        intro he
        have hts : t.id = t'.id := by rw [← he, hid]
        have : t.id ∉ rest.map (fun t => t.id) :=
          (List.nodup_cons.mp hnodup).1
        exact this (hts ▸ List.mem_map.mpr ⟨t', ht', rfl⟩)
      exact hpend t' (List.mem_cons_of_mem t ht') row (hrow' row hr hne) hid
    have hnodup' : (rest.map (fun t => t.id)).Nodup :=
      (List.nodup_cons.mp hnodup).2
    have hrec := ih st' hpend' hnodup'
    constructor
    · intro hall
      have hall' : ∀ u ∈ st'.db.updates, allowedUpdate u :=
        fun u hu => (hup_all u hu).elim (hall u) id
      simp only [runLoop, hd]
      cases early
      · simp only [Bool.false_eq_true, if_false]
        exact hrec.1 hall'
      · simp only [if_true]
        exact hall'
    · intro ⟨hcov, hstr⟩
      have hstr' : ∀ u ∈ st'.db.updates, strictUpdate u :=
        fun u hu =>
          (hup_str (hcov t (List.mem_cons_self t rest)) u hu).elim (hstr u) id
      have hcov' : ∀ t' ∈ rest, ¬ findProject st'.db t'.contact.projectId = none := by
        intro t' ht'
        rw [findProject_congr st'.db st.db _ hproj']
        exact hcov t' (List.mem_cons_of_mem t ht')
      simp only [runLoop, hd]
      cases early
      · simp only [Bool.false_eq_true, if_false]
        exact hrec.2 ⟨hcov', hstr'⟩
      · simp only [if_true]
        exact hstr'



/-- Helper: every claimed task is a PENDING row of the store. -/
theorem claimedTasks_mem (maxPerMinute : Nat) (db : DB) :
    ∀ t ∈ claimedTasks maxPerMinute db, t ∈ db.tasks ∧ t.status = .PENDING := by
  intro t ht
  have h1 : t ∈ (db.tasks.filter (fun t => t.status = .PENDING)) :=
    (List.perm_insertionSort _ _).mem_iff.mp (List.mem_of_mem_take ht)
  have h2 := List.mem_filter.mp h1
  exact ⟨h2.1, by simpa using h2.2⟩

/-- Helper: with distinct row ids, the claimed batch carries distinct
ids. -/
theorem claimedTasks_ids_nodup (maxPerMinute : Nat) (db : DB)
    (h : (db.tasks.map (fun t => t.id)).Nodup) :
    ((claimedTasks maxPerMinute db).map (fun t => t.id)).Nodup := by
  have hf : ((db.tasks.filter (fun t => t.status = .PENDING)).map
      (fun t => t.id)).Nodup :=
    h.sublist ((List.filter_sublist _).map _)
  have hs : (((db.tasks.filter (fun t => t.status = .PENDING)).insertionSort
      (fun a b => a.createdAt ≤ b.createdAt)).map (fun t => t.id)).Nodup :=
    (((List.perm_insertionSort _ _).map _).nodup_iff).mpr hf
  have : ((claimedTasks maxPerMinute db).map (fun t => t.id)).Sublist
      (((db.tasks.filter (fun t => t.status = .PENDING)).insertionSort
        (fun a b => a.createdAt ≤ b.createdAt)).map (fun t => t.id)) := by
    unfold claimedTasks
    exact (List.take_sublist _ _).map _
  exact hs.sublist this

/-- C5 (amended): every status write the dispatcher issues moves the
status strictly forward in the order PENDING < PROCESSING < terminal; when
every task's project exists the writes are exactly PENDING→PROCESSING,
PROCESSING→COMPLETED and PROCESSING→FAILED, but the vanished-project
cleanup writes PENDING→FAILED on pending siblings directly, without passing
through PROCESSING. -/
theorem C5_thm :
    ∀ (maxPerMinute maxPerSecond : Nat) (env : Env) (db : DB) (r : Redis),
      (db.tasks.map (fun t => t.id)).Nodup →
      db.updates = [] →
      (∀ u ∈ (handleTasks maxPerMinute maxPerSecond env db r).1.updates,
        allowedUpdate u) ∧
      ((∀ t ∈ db.tasks, ¬ findProject db t.contact.projectId = none) →
        ∀ u ∈ (handleTasks maxPerMinute maxPerSecond env db r).1.updates,
          strictUpdate u) ∧
      (∀ u : StatusUpdate, allowedUpdate u →
        statusRank u.oldStatus < statusRank u.newStatus) := by
  intro maxPerMinute maxPerSecond env db r hnodup hinit
  have hrank : ∀ u : StatusUpdate, allowedUpdate u →
      statusRank u.oldStatus < statusRank u.newStatus := by
    intro u h
    rcases h with ⟨h1, h2⟩ | ⟨h1, h2⟩ | ⟨h1, h2⟩ | ⟨h1, h2⟩ <;>
      rw [h1, h2] <;> decide
  by_cases hc : (claimedTasks maxPerMinute db).isEmpty
  · have hfin : handleTasks maxPerMinute maxPerSecond env db r
        = (db, r, ⟨true, 0, none, none⟩) := by
      simp [handleTasks, hc]
    rw [hfin]
    refine ⟨?_, fun _ => ?_, hrank⟩ <;>
      (intro u hu; rw [hinit] at hu; cases hu)
  · simp only [Bool.not_eq_true] at hc
    have hpend : ∀ t ∈ claimedTasks maxPerMinute db,
        ∀ row ∈ db.tasks, row.id = t.id → row.status = .PENDING := by
      intro t ht row hr hid
      rcases claimedTasks_mem maxPerMinute db t ht with ⟨htm, hts⟩
      have := List.inj_on_of_nodup_map hnodup hr htm hid
      rw [this]
      exact hts
    have hids := claimedTasks_ids_nodup maxPerMinute db hnodup
    have hloop := runLoop_updates maxPerMinute maxPerSecond env
      (claimedTasks maxPerMinute db)
      { db := db, redis := r, processed := 0, completedCampaignIds := [] }
      hpend hids
    rcases hrl : runLoop maxPerMinute maxPerSecond env
        (claimedTasks maxPerMinute db)
        { db := db, redis := r, processed := 0, completedCampaignIds := [] }
        with ⟨st, early⟩
    rw [hrl] at hloop
    dsimp only at hloop
    have hempty : ∀ u ∈ db.updates, False := by
      intro u hu
      rw [hinit] at hu
      cases hu
    constructor
    · intro u hu
      refine hloop.1 (fun u hu => absurd hu (fun h => hempty u h)) u ?_
      -- final updates are st.db.updates, whether or not reconciliation ran
      revert hu
      simp only [handleTasks, hc, Bool.false_eq_true, if_false, hrl]
      cases early
      · simp only [Bool.false_eq_true, if_false]
        rw [checkAndMark_updates]
        exact fun h => h
      · simp only [if_true]
        exact fun h => h
    · refine ⟨?_, hrank⟩
      intro hcov u hu
      have hcov' : ∀ t ∈ claimedTasks maxPerMinute db,
          ¬ findProject db t.contact.projectId = none :=
        fun t ht => hcov t (claimedTasks_mem maxPerMinute db t ht).1
      refine hloop.2 ⟨hcov', fun u hu => absurd hu (fun h => hempty u h)⟩ u ?_
      revert hu
      simp only [handleTasks, hc, Bool.false_eq_true, if_false, hrl]
      cases early
      · simp only [Bool.false_eq_true, if_false]
        rw [checkAndMark_updates]
        exact fun h => h
      · simp only [if_true]
        exact fun h => h


/-- C2 witness: the skip clause applied at a store whose increment pipeline
is down (the admission loop exhausts its retries), and the counting clause
at a concrete invocation. -/
theorem C2_witness :
    ((dispatchOne 3 5 envOk ⟨dbTwoPlain, ⟨0, 0, false, false, true, 0⟩, 0, []⟩
        (taskPlain 1 0)).1.db = dbTwoPlain ∧
     (dispatchOne 3 5 envOk ⟨dbTwoPlain, ⟨0, 0, false, false, true, 0⟩, 0, []⟩
        (taskPlain 1 0)).1.processed = 0) ∧
    (handleTasks 3 5 envOk dbTwoPlain redisStart).1.sends.length
        + redisStart.reservations
      ≤ dbTwoPlain.sends.length
        + (handleTasks 3 5 envOk dbTwoPlain redisStart).2.1.reservations :=
  ⟨C2_thm.1 3 5 envOk ⟨dbTwoPlain, ⟨0, 0, false, false, true, 0⟩, 0, []⟩
      (taskPlain 1 0) ⟨0, 0, false, false, true, 0⟩ (by decide),
   C2_thm.2 3 5 envOk dbTwoPlain redisStart⟩

/-- C5: the claim that no task moves from PENDING directly to COMPLETED or
FAILED without passing through PROCESSING is false: dispatching a task of a
vanished project logs PENDING→FAILED for its pending sibling (task 2) with
no PROCESSING write for that sibling anywhere in the log. -/
theorem C5_counterexample :
    (handleTasks 10 5 envOk dbVanish redisStart).1.updates
      = [⟨1, .PENDING, .PROCESSING⟩, ⟨2, .PENDING, .FAILED⟩] ∧
    (⟨2, .PENDING, .FAILED⟩ : StatusUpdate)
      ∈ (handleTasks 10 5 envOk dbVanish redisStart).1.updates := by
  decide

/-- C5 witness: the amended theorem applied at the concrete vanished-project
store. -/
theorem C5_witness :
    (∀ u ∈ (handleTasks 10 5 envOk dbVanish redisStart).1.updates,
      allowedUpdate u) ∧
    (∀ u : StatusUpdate, allowedUpdate u →
      statusRank u.oldStatus < statusRank u.newStatus) :=
  ⟨(C5_thm 10 5 envOk dbVanish redisStart (by decide) rfl).1,
   (C5_thm 10 5 envOk dbVanish redisStart (by decide) rfl).2.2⟩

/-- C7: the claim as stated is false without a live project: a task whose
action is suppressed by a prior trigger, but whose project has vanished,
makes no transport call yet does not end COMPLETED — the cleanup deletes
it and the invocation sees the exception. -/
theorem C7_counterexample :
    (actionSup.notevents.any fun e =>
      (triggersFor dbSupGone taskSupGone.contact.id).any fun tr =>
        tr.1 = taskSupGone.contact.id ∧ tr.2 = e.id) = true ∧
    (processSingleTask envOk dbSupGone taskSupGone).2 = none ∧
    (processSingleTask envOk dbSupGone taskSupGone).1.tasks = [] := by
  decide

/-- C7 witness: the amended theorem applied at a concrete suppressed task
with a live project. -/
theorem C7_witness :
    (processSingleTask envOk dbSup taskSup).2 = some true ∧
    (processSingleTask envOk dbSup taskSup).1.sends = dbSup.sends ∧
    (processSingleTask envOk dbSup taskSup).1.emails = dbSup.emails :=
  (fun h => ⟨h.1, h.2.1, h.2.2.1⟩)
    (C7_thm envOk dbSup taskSup actionSup projectOne rfl (by decide)
      (by decide) (by decide))

/-- C8 witness: the theorem applied at a concrete store whose project 99 is
gone, with a PENDING sibling. -/
theorem C8_witness :
    (processSingleTask envOk dbVanish taskGoneA).2 = none ∧
    (processSingleTask envOk dbVanish taskGoneA).1.sends = dbVanish.sends ∧
    (⟨2, .PENDING, .FAILED⟩ : StatusUpdate)
      ∈ (processSingleTask envOk dbVanish taskGoneA).1.updates :=
  (fun h => ⟨h.1, h.2.1,
    h.2.2.2.1 taskGoneB (by decide) (by decide) (by decide) (by decide)⟩)
    (C8_thm.1 envOk dbVanish taskGoneA (by decide) (by decide) (by decide))

/-- C10 witness: the theorem applied at a concrete store with one plain
task. -/
theorem C10_witness :
    (processSingleTask envOk dbOnePlain (taskPlain 1 0)).2 = some true ∧
    (processSingleTask envOk dbOnePlain (taskPlain 1 0)).1.emails
      = dbOnePlain.emails
        ++ [⟨dbOnePlain.sends.length, (taskPlain 1 0).contact.id, none, none⟩] :=
  (fun h => ⟨h.1, h.2.2.1⟩)
    (C10_thm envOk dbOnePlain (taskPlain 1 0) projectOne rfl rfl
      (by decide) (by decide) rfl)

end Plunk
